import Mathlib

/-!
Verification development for the transform/composition authoring subsystem of
the usd-mcp-server repository (src/usd_mcp/tools/tier0.py, tier2.py, tier3.py).

The Python tools are shallowly embedded as pure Lean functions over explicit
stage/prim states.  Numeric values are modelled as rationals (the Python code
only multiplies, divides by two and compares against 1e-12, all exact).
File persistence is modelled by threading an explicit on-disk state that is
replaced by the in-memory state exactly where the Python calls
`stage.GetRootLayer().Save()`; a `saveOk` flag models the possibility of that
call failing.  External USD library calls are modelled at the granularity the
tools use them, with the modelling choice recorded in a comment at each
definition.
-/

namespace UsdMcp

/-! ### Exact rational values

The numeric values the tools compute with (multiplication by 0.5, the 1e-12
identity tolerance, matrix products) are exact, so they are modelled by
rationals.  A small self-contained implementation is used instead of
Mathlib's `ℚ` because its operations must evaluate inside the kernel for the
concrete-input theorems (`Rat`'s arithmetic normalizes through the
well-founded `Nat.gcd`, which the kernel cannot unfold); every operation
below is structurally recursive.  All constructors used keep the canonical
form (positive denominator, reduced), so structural equality is value
equality. -/

/-- Fuel-driven Euclidean gcd (the fuel bounds the number of steps). -/
def gcdF : ℕ → ℕ → ℕ → ℕ
  | 0, a, _ => a
  | _ + 1, a, 0 => a
  | f + 1, a, b + 1 => gcdF f (b + 1) (a % (b + 1))

/-- Greatest common divisor. -/
def natGcd (a b : ℕ) : ℕ := gcdF (a + b + 1) a b

/-- An exact rational number in canonical form. -/
structure Q where
  num : ℤ
  den : ℕ
deriving DecidableEq, Repr

/-- Build the canonical fraction `n / d` (`d` is never zero at a call site). -/
def Q.mk' (n : ℤ) (d : ℕ) : Q :=
  let g := natGcd n.natAbs d
  if g = 0 then ⟨0, 1⟩ else ⟨n / (g : ℤ), d / g⟩

instance (n : ℕ) : OfNat Q n := ⟨⟨n, 1⟩⟩

/-- Addition. -/
def Q.add (a b : Q) : Q := Q.mk' (a.num * b.den + b.num * a.den) (a.den * b.den)

/-- Multiplication. -/
def Q.mul (a b : Q) : Q := Q.mk' (a.num * b.num) (a.den * b.den)

/-- Negation. -/
def Q.neg (a : Q) : Q := ⟨-a.num, a.den⟩

/-- Subtraction. -/
def Q.sub (a b : Q) : Q := Q.add a (Q.neg b)

/-- Absolute value. -/
def Q.abs (a : Q) : Q := ⟨a.num.natAbs, a.den⟩

/-- Comparison (denominators are positive). -/
def Q.leB (a b : Q) : Bool := a.num * (b.den : ℤ) ≤ b.num * (a.den : ℤ)

instance : Add Q := ⟨Q.add⟩
instance : Mul Q := ⟨Q.mul⟩
instance : Sub Q := ⟨Q.sub⟩
instance : Neg Q := ⟨Q.neg⟩

/-- The constant `0.5` (the Python code multiplies `scale.x` by `0.5`). -/
def qHalf : Q := ⟨1, 2⟩

/-- The identity tolerance `1e-12`. -/
def qEps : Q := ⟨1, 1000000000000⟩

/-- A 3-component vector (Gf.Vec3d / Gf.Vec3f values are modelled exactly). -/
structure Vec3 where
  x : Q
  y : Q
  z : Q
deriving DecidableEq, Repr

/-- A 4x4 matrix (Gf.Matrix4d), row major. -/
structure Matrix4 where
  a00 : Q
  a01 : Q
  a02 : Q
  a03 : Q
  a10 : Q
  a11 : Q
  a12 : Q
  a13 : Q
  a20 : Q
  a21 : Q
  a22 : Q
  a23 : Q
  a30 : Q
  a31 : Q
  a32 : Q
  a33 : Q
deriving DecidableEq, Repr

/-- The identity matrix (Gf.Matrix4d(1.0)). -/
def idMatrix4 : Matrix4 :=
  ⟨1, 0, 0, 0, 0, 1, 0, 0, 0, 0, 1, 0, 0, 0, 0, 1⟩

/-- Whether `a` is within 1e-12 of `b` (the tolerance used by `_is_identity`). -/
def nearQ (a b : Q) : Bool :=
  Q.leB (Q.abs (a - b)) qEps

/-- Numeric identity test of tier2.py `_is_identity`: all 16 entries within
1e-12 of the identity matrix. -/
def Matrix4.identityLike (m : Matrix4) : Bool :=
  nearQ m.a00 1 && nearQ m.a01 0 && nearQ m.a02 0 && nearQ m.a03 0 &&
  nearQ m.a10 0 && nearQ m.a11 1 && nearQ m.a12 0 && nearQ m.a13 0 &&
  nearQ m.a20 0 && nearQ m.a21 0 && nearQ m.a22 1 && nearQ m.a23 0 &&
  nearQ m.a30 0 && nearQ m.a31 0 && nearQ m.a32 0 && nearQ m.a33 1

/-- Matrix product (`acc * m` on Gf.Matrix4d). -/
def matMul (a b : Matrix4) : Matrix4 :=
  ⟨a.a00 * b.a00 + a.a01 * b.a10 + a.a02 * b.a20 + a.a03 * b.a30,
   a.a00 * b.a01 + a.a01 * b.a11 + a.a02 * b.a21 + a.a03 * b.a31,
   a.a00 * b.a02 + a.a01 * b.a12 + a.a02 * b.a22 + a.a03 * b.a32,
   a.a00 * b.a03 + a.a01 * b.a13 + a.a02 * b.a23 + a.a03 * b.a33,
   a.a10 * b.a00 + a.a11 * b.a10 + a.a12 * b.a20 + a.a13 * b.a30,
   a.a10 * b.a01 + a.a11 * b.a11 + a.a12 * b.a21 + a.a13 * b.a31,
   a.a10 * b.a02 + a.a11 * b.a12 + a.a12 * b.a22 + a.a13 * b.a32,
   a.a10 * b.a03 + a.a11 * b.a13 + a.a12 * b.a23 + a.a13 * b.a33,
   a.a20 * b.a00 + a.a21 * b.a10 + a.a22 * b.a20 + a.a23 * b.a30,
   a.a20 * b.a01 + a.a21 * b.a11 + a.a22 * b.a21 + a.a23 * b.a31,
   a.a20 * b.a02 + a.a21 * b.a12 + a.a22 * b.a22 + a.a23 * b.a32,
   a.a20 * b.a03 + a.a21 * b.a13 + a.a22 * b.a23 + a.a23 * b.a33,
   a.a30 * b.a00 + a.a31 * b.a10 + a.a32 * b.a20 + a.a33 * b.a30,
   a.a30 * b.a01 + a.a31 * b.a11 + a.a32 * b.a21 + a.a33 * b.a31,
   a.a30 * b.a02 + a.a31 * b.a12 + a.a32 * b.a22 + a.a33 * b.a32,
   a.a30 * b.a03 + a.a31 * b.a13 + a.a32 * b.a23 + a.a33 * b.a33⟩

/-! ### String helpers

Python string operations are modelled by structurally recursive functions on
character lists (the corresponding `String` library functions are
position-based and do not evaluate inside the kernel). -/

/-- Python `str.strip()`: drop whitespace from both ends. -/
def pyStrip (s : String) : String :=
  (((s.toList.dropWhile Char.isWhitespace).reverse.dropWhile
      Char.isWhitespace).reverse).asString

/-- Python `str.lower()` (ASCII, which is all the compared keys use). -/
def pyLower (s : String) : String :=
  (s.toList.map Char.toLower).asString

/-- Python `str.upper()` (ASCII). -/
def pyUpper (s : String) : String :=
  (s.toList.map Char.toUpper).asString

/-- Python `str.startswith`. -/
def pyStartsWith (s t : String) : Bool :=
  t.toList.isPrefixOf s.toList

/-- Python `str.endswith`. -/
def pyEndsWith (s t : String) : Bool :=
  t.toList.isSuffixOf s.toList

/-- Drop the first `n` characters. -/
def pyDrop (s : String) (n : ℕ) : String :=
  (s.toList.drop n).asString

/-- Split a character list at every occurrence of `c` (Python `str.split`). -/
def splitChar (c : Char) : List Char → List (List Char)
  | [] => [[]]
  | x :: xs =>
    if x = c then [] :: splitChar c xs
    else
      match splitChar c xs with
      | [] => [[x]]
      | h :: t => (x :: h) :: t

/-- Join character lists with a separator character. -/
def joinChar (c : Char) : List (List Char) → List Char
  | [] => []
  | [h] => h
  | h :: t => h ++ c :: joinChar c t

/-! ### Association-list helpers (path-addressed prims, name-addressed attributes) -/

/-- Lookup in an association list by string key. -/
def lookupA {α : Type} : List (String × α) → String → Option α
  | [], _ => none
  | (k, v) :: rest, key => if k = key then some v else lookupA rest key

/-- Update the value at a key if present; leave the list unchanged otherwise
(models `attr.Set` guarded by `if attr:` on an existing attribute). -/
def setIfPresent {α : Type} : List (String × α) → String → α → List (String × α)
  | [], _, _ => []
  | (k, v) :: rest, key, nv =>
    if k = key then (k, nv) :: rest else (k, v) :: setIfPresent rest key nv

/-- Update the value at a key, appending the binding when absent. -/
def upsertA {α : Type} : List (String × α) → String → α → List (String × α)
  | [], key, nv => [(key, nv)]
  | (k, v) :: rest, key, nv =>
    if k = key then (k, nv) :: rest else (k, v) :: upsertA rest key nv

/-- Error codes of `error_response` as used by the modelled tools. -/
inductive ErrCode
  | invalid_params
  | not_found
  | open_failed
  | save_failed
  | set_failed
  | reference_failed
  | bind_failed
  | xform_failed
  | attr_failed
  | variant_failed
  | missing_usd
  | export_failed
deriving DecidableEq, Repr

/-! ## Transform ops and the tier2 transform model

A prim's ordered xform-op list (`UsdGeom.Xformable.GetOrderedXformOps`) is
modelled as a list of typed ops, each carrying the value authored at the
call's single modelled time code (`none` when the op attribute has no value
at that time code, e.g. an op authored only at other time samples or created
by `AddXformOp` without a subsequent `Set`). -/

/-- The op kinds the tools author (`UsdGeom.XformOp` types). -/
inductive XOpType
  | translate
  | rotateXYZ
  | scale
  | transform
deriving DecidableEq, Repr

/-- An xform-op value: a vector for common ops, a matrix for `TypeTransform`. -/
inductive XVal
  | v3 (v : Vec3)
  | m4 (m : Matrix4)
deriving DecidableEq, Repr

/-- One entry of the ordered xform-op list. -/
structure XOp where
  ty : XOpType
  value : Option XVal
deriving DecidableEq, Repr

/-- A prim as seen by tier2's transform tools: type name, scalar geometric
attributes (radius/height/size), the composed ordered op list, whether the
prim has authored references (`prim.HasAuthoredReferences()`), and the scale
value visible through composition from referenced layers, if any (what
`prim.GetAttribute("xformOp:scale").Get(time_code)` would return when no
local scale op carries a value). -/
structure TPrim where
  typeName : String
  attrs : List (String × Q)
  ops : List XOp
  hasAuthoredReferences : Bool
  refScale : Option Vec3
deriving DecidableEq, Repr

/-- A stage for the tier2 model: prims addressed by path. -/
abbrev TStage := List (String × TPrim)

/-- Canonical rank of the common op kinds (translate before rotate before
scale, transform ops outside the common form). -/
def caRank : XOpType → ℕ
  | .translate => 0
  | .rotateXYZ => 1
  | .scale => 2
  | .transform => 3

/-- Whether an op list is in the XformCommonAPI-compatible form the model
covers: common op kinds in canonical order, no duplicates, no matrix op. -/
def caCompatible : List XOp → Bool
  | [] => true
  | [o] => o.ty ≠ XOpType.transform
  | o :: o2 :: rest =>
    decide (o.ty ≠ XOpType.transform) && decide (caRank o.ty < caRank o2.ty) &&
      caCompatible (o2 :: rest)

/-- Models `UsdGeom.XformCommonAPI.SetTranslate/SetRotate/SetScale` on a
CommonAPI-compatible op stack: set the value of the op of that kind, creating
it at its canonical position when absent.  (On incompatible stacks the real
API refuses to author; theorems about this model carry a compatibility
hypothesis.) -/
def caSet (t : XOpType) (v : Vec3) : List XOp → List XOp
  | [] => [⟨t, some (.v3 v)⟩]
  | o :: rest =>
    if o.ty = t then ⟨t, some (.v3 v)⟩ :: rest
    else if caRank t < caRank o.ty then ⟨t, some (.v3 v)⟩ :: o :: rest
    else o :: caSet t v rest

/-- One entry of the `ops` request array of `tool_set_xform_in_file`: the raw
op key string and the value (`some v` when the JSON value is a numeric list
with at least three components, `none` for any other value, for which the
`isinstance(val, (list, tuple))` guard fails). -/
structure OpEntry where
  op : String
  value : Option Vec3
deriving DecidableEq, Repr

/-- Key normalization of tier2.py lines 279-282: lowercase, strip, and drop a
leading `xformop:` through the first colon. -/
def parseOpKey (raw : String) : String :=
  let o := pyStrip (pyLower raw)
  if pyStartsWith o "xformop:" then pyDrop o 8 else o

/-- The translate/rotate/scale values accumulated by the entry loop. -/
structure TRS where
  translate : Option Vec3
  rotate : Option Vec3
  scale : Option Vec3
deriving DecidableEq, Repr

/-- The entry loop of tier2.py lines 278-291: later entries overwrite earlier
ones of the same kind; an entry whose key is unsupported, or whose value is
not a list, fails with invalid-parameters. -/
def parseXformEntries : List OpEntry → TRS → Except ErrCode TRS
  | [], acc => .ok acc
  | e :: rest, acc =>
    let op := parseOpKey e.op
    if (op = "translate" ∨ op = "t") ∧ e.value.isSome then
      parseXformEntries rest { acc with translate := e.value }
    else if (op = "scale" ∨ op = "s") ∧ e.value.isSome then
      parseXformEntries rest { acc with scale := e.value }
    else if (op = "rotatexyz" ∨ op = "r") ∧ e.value.isSome then
      parseXformEntries rest { acc with rotate := e.value }
    else .error .invalid_params

/-- Composed value of the attribute `xformOp:scale` on a prim: the local op
value when one is authored, else the value composed from referenced layers. -/
def scaleAttrValue (p : TPrim) : Option Vec3 :=
  match p.ops.find? (fun o => o.ty = XOpType.scale) with
  | some o =>
    match o.value with
    | some (.v3 v) => some v
    | _ => p.refScale
  | none => p.refScale

/-- The gprim size redirection of tier2.py lines 294-315: on a Sphere, a
supplied scale sets `radius := scale.x * 0.5` (when the attribute exists) and
the xform scale is dropped; on a Cone, `height := scale.z` and
`radius := scale.x * 0.5`; every other type (deliberately including Cube)
keeps the xform scale. -/
def redirectScale (p : TPrim) (trs : TRS) : TPrim × TRS :=
  match trs.scale with
  | some s =>
    if p.typeName = "Sphere" then
      ({ p with attrs := setIfPresent p.attrs "radius" (s.x * qHalf) },
       { trs with scale := none })
    else if p.typeName = "Cone" then
      ({ p with attrs :=
           setIfPresent (setIfPresent p.attrs "height" s.z) "radius" (s.x * qHalf) },
       { trs with scale := none })
    else (p, trs)
  | none => (p, trs)

/-- Which ops the op-order rebuild of tier2.py lines 370-396 keeps. -/
def keepOp (setT setR setS scaleFromRefs : Bool) (refScale : Option Vec3) (o : XOp) :
    Bool :=
  match o.ty with
  | .transform => false
  | .translate => setT
  | .rotateXYZ => setR
  | .scale =>
    if setS then true
    else if scaleFromRefs then true
    else
      match o.value with
      | some _ => true
      | none => refScale.isSome

/-- The XformCommonAPI application of tier2.py lines 320-339: author, in
translate/rotate/scale order, exactly the values supplied. -/
def applyCommonOps (trs : TRS) (p : TPrim) : TPrim :=
  let ops1 := match trs.translate with
    | some v => caSet .translate v p.ops
    | none => p.ops
  let ops2 := match trs.rotate with
    | some v => caSet .rotateXYZ v ops1
    | none => ops1
  let ops3 := match trs.scale with
    | some v => caSet .scale v ops2
    | none => ops2
  { p with ops := ops3 }

/-- The op-order rebuild of tier2.py lines 341-414: keep the ops explicitly
set this call, preserve a scale that is visible through references even when
not set (appending a fresh valueless scale op when none exists locally), and
only author the new order when it is non-empty. -/
def rebuildXform (trs : TRS) (p : TPrim) : TPrim :=
  let setT := trs.translate.isSome
  let setR := trs.rotate.isSome
  let setS := trs.scale.isSome
  let scaleFromRefs :=
    p.hasAuthoredReferences && !setS && (scaleAttrValue p).isSome
  let current := p.ops.filter (keepOp setT setR setS scaleFromRefs p.refScale)
  let current :=
    if scaleFromRefs && !setS && !(current.any (fun o => o.ty = XOpType.scale)) then
      current ++ [⟨.scale, none⟩]
    else current
  if current.isEmpty then p else { p with ops := current }

/-- The ops form of `tool_set_xform_in_file` (tier2.py lines 269-414) applied
to one prim: parse the entries, redirect scale for Sphere/Cone, author the
supplied common ops, then rebuild the op order. -/
def setXformOps (p0 : TPrim) (entries : List OpEntry) : Except ErrCode TPrim :=
  match parseXformEntries entries ⟨none, none, none⟩ with
  | .error e => .error e
  | .ok trs0 =>
    let pr := redirectScale p0 trs0
    .ok (rebuildXform pr.2 (applyCommonOps pr.2 pr.1))

/-- Set the value of the first `TypeTransform` op in the list. -/
def setFirstTransform (m : Matrix4) : List XOp → List XOp
  | [] => []
  | o :: rest =>
    if o.ty = XOpType.transform then ⟨o.ty, some (.m4 m)⟩ :: rest
    else o :: setFirstTransform m rest

/-- The matrix form of `tool_set_xform_in_file` (tier2.py lines 250-268):
reuse the first existing `TypeTransform` op if present, else append one, and
set its value. -/
def setXformMatrix (p : TPrim) (m : Matrix4) : TPrim :=
  if p.ops.any (fun o => o.ty = XOpType.transform) then
    { p with ops := setFirstTransform m p.ops }
  else
    { p with ops := p.ops ++ [⟨.transform, some (.m4 m)⟩] }

/-- Request parameters of `tool_set_xform_in_file`. -/
structure SetXformParams where
  path : String
  primPath : String
  matrix : Option Matrix4
  ops : Option (List OpEntry)
deriving Repr

/-- Success payload of `tool_set_xform_in_file`. -/
structure SetXformOut where
  outputPath : String
deriving DecidableEq, Repr

/-- Truthiness of the `ops` request field (`elif ops:` in Python — an absent
or empty list is falsy). -/
def opsTruthy : Option (List OpEntry) → Bool
  | some (_ :: _) => true
  | _ => false

/-- The tool `tool_set_xform_in_file` (tier2.py lines 222-421): validate,
open the stage (modelled by the on-disk stage value), look up the prim,
author via the matrix form when `matrix` is supplied (the `ops` field is then
never read), else via the ops form when `ops` is non-empty, else fail with
invalid-parameters; finally save, which replaces the on-disk stage. -/
def toolSetXformInFile (q : SetXformParams) (disk : TStage) (saveOk : Bool) :
    Except ErrCode SetXformOut × TStage :=
  let path := pyStrip q.path
  let primPath := pyStrip q.primPath
  if path = "" ∨ primPath = "" then (.error .invalid_params, disk)
  else
    match lookupA disk primPath with
    | none => (.error .not_found, disk)
    | some p =>
      let authored : Except ErrCode TPrim :=
        match q.matrix, q.ops with
        | some m, _ => .ok (setXformMatrix p m)
        | none, some (e :: es) => setXformOps p (e :: es)
        | none, _ => .error .invalid_params
      match authored with
      | .error e => (.error e, disk)
      | .ok p2 =>
        if saveOk then (.ok ⟨path⟩, upsertA disk primPath p2)
        else (.error .save_failed, disk)

/-! ## The tier2 world-transform resolver (tool_get_xform_in_file) -/

/-- Serialization fallback of `_m4_to_list`: a value that is not a matrix
(in particular Python `None`) serializes as the identity matrix. -/
def reportWorld : Option Matrix4 → Matrix4
  | some m => m
  | none => idMatrix4

/-- The first fallback scan of tier2.py lines 142-151: walk the ordered ops;
at the first `TypeTransform` op whose value fails the identity test the loop
assigns that raw value to `world` and breaks.  A valueless op fails the test
too (`_is_identity` returns False on `None`), so the loop breaks with `None`
(modelled as `some none`).  `none` means the loop found nothing. -/
def matrixOpScan : List XOp → Option (Option Matrix4)
  | [] => none
  | o :: rest =>
    if o.ty = XOpType.transform then
      match o.value with
      | some (.m4 m) => if m.identityLike then matrixOpScan rest else some (some m)
      | _ => some none
    else matrixOpScan rest

/-- The per-ancestor matrix of `_authored_transform_matrix`: the value of the
first `TypeTransform` op, `none` when there is no such op or it has no value. -/
def firstTransformValue (l : List XOp) : Option Matrix4 :=
  match l.find? (fun o => o.ty = XOpType.transform) with
  | some o =>
    match o.value with
    | some (.m4 m) => some m
    | _ => none
  | none => none

/-- The second fallback of tier2.py lines 154-189: accumulate, parent first,
the explicit matrix-op values along the root-to-prim chain, remembering
whether any was non-identity. -/
def ancestorAccum (chain : List (List XOp)) : Matrix4 × Bool :=
  chain.foldl
    (fun acc ops =>
      match firstTransformValue ops with
      | some m => (matMul acc.1 m, acc.2 || !m.identityLike)
      | none => acc)
    (idMatrix4, false)

/-- The world matrix reported by `tool_get_xform_in_file` (tier2.py lines
125-189 and the `_m4_to_list` serialization): the composed evaluator result,
unless it is identity-like, in which case the two-stage fallback applies.
`composed` is the `UsdGeom.XformCache` result, `ops` the prim's ordered op
list, `chain` the op lists along the root-to-prim chain (the prim included). -/
def resolveWorld (composed : Matrix4) (ops : List XOp) (chain : List (List XOp)) :
    Matrix4 :=
  if composed.identityLike then
    match matrixOpScan ops with
    | some w => reportWorld w
    | none =>
      let acc := ancestorAccum chain
      if acc.2 then acc.1 else composed
  else composed

/-! ## Shared model of variant-carrying prims (tier3 variants, tier0 batch)

Opinions (references, material binding, transform ops, attributes) can be
authored either directly on a prim or inside one variant of one of its
variant sets; the two pools compose, with the direct pool and the selected
variant's pool both contributing.  The model keeps them separate, which is
all the claims need. -/

/-- A composition reference (`Sdf.Reference`): target document and optional
internal prim path. -/
structure Reference where
  assetPath : String
  internalPath : Option String
deriving DecidableEq, Repr

/-- One entry of a `references` array in a request. -/
structure RefDef where
  assetPath : Option String
  internalPath : Option String
deriving DecidableEq, Repr

/-- A request/attribute value, classified the way the Python `isinstance`
guards classify it: a 3-element numeric list, a 4x4 nested list, a
one-element array-of-vector (the displayColor coercion result), an array of
reference dicts, any other list, or any non-list value. -/
inductive PVal
  | num (q : Q)
  | str (s : String)
  | vec (v : Vec3)
  | mat (m : Matrix4)
  | vecArr (v : Vec3)
  | refList (l : List RefDef)
  | listOther
  | other
deriving DecidableEq, Repr

/-- Whether the Python value is a list/tuple. -/
def PVal.isList : PVal → Bool
  | .vec _ | .mat _ | .vecArr _ | .refList _ | .listOther => true
  | _ => false

/-- Whether the Python value is a 3-element numeric list. -/
def PVal.isVec3 : PVal → Bool
  | .vec _ => true
  | _ => false

/-- One pool of authored opinions: references, material binding, common
transform ops, an explicit matrix op, and named attributes. -/
structure VOpinions where
  refs : List Reference
  binding : Option String
  translate : Option Vec3
  rotate : Option Vec3
  scale : Option Vec3
  matrixOp : Option Matrix4
  attrs : List (String × PVal)
deriving DecidableEq, Repr

/-- No opinions. -/
def VOpinions.empty : VOpinions := ⟨[], none, none, none, none, none, []⟩

/-- The state of one variant set on a prim: its variants, each an isolated
opinion pool, and the current selection. -/
structure VariantSetSt where
  variants : List (String × VOpinions)
  selection : Option String
deriving DecidableEq, Repr

/-- A prim as seen by tier3's variant tool and tier0's batch writer. -/
structure VPrim where
  direct : VOpinions
  vsets : List (String × VariantSetSt)
  isMaterialType : Bool
  xformable : Bool
deriving DecidableEq, Repr

/-- A stage: prims addressed by path. -/
abbrev VStage := List (String × VPrim)

/-- The external asset library: maps an asset file path that `Usd.Stage.Open`
can open to the path of its default prim (`none` when the document declares
no default prim).  A path absent from the library models a file that cannot
be opened. -/
abbrev AssetLib := List (String × Option String)

/-- Python truthiness of an optional string. -/
def strTruthy : Option String → Bool
  | some s => s ≠ ""
  | none => false

/-- Read a variant set (the `UsdVariantSets.GetVariantSet` handle is lazy; a
set that was never written reads as empty with no selection). -/
def getVSet (p : VPrim) (s : String) : VariantSetSt :=
  (lookupA p.vsets s).getD ⟨[], none⟩

/-- Write back a variant set. -/
def setVSet (p : VPrim) (s : String) (st : VariantSetSt) : VPrim :=
  { p with vsets := upsertA p.vsets s st }

/-- Models `vset.AddVariant(v)` (idempotent; materializes the set). -/
def addVariant (p : VPrim) (s v : String) : VPrim :=
  let st := getVSet p s
  if (lookupA st.variants v).isSome then setVSet p s st
  else setVSet p s { st with variants := st.variants ++ [(v, VOpinions.empty)] }

/-- Models `vset.SetVariantSelection(v)`. -/
def setSelection (p : VPrim) (s v : String) : VPrim :=
  let st := getVSet p s
  setVSet p s { st with selection := some v }

/-- Author inside the edit scope of variant `v` of set `s` (what happens to
edits made while holding an entered `GetVariantEditContext()`): the update
applies to that variant's isolated opinion pool. -/
def updateVariant (p : VPrim) (s v : String) (f : VOpinions → VOpinions) : VPrim :=
  let st := getVSet p s
  match lookupA st.variants v with
  | some o => setVSet p s { st with variants := upsertA st.variants v (f o) }
  | none => setVSet p s { st with variants := st.variants ++ [(v, f VOpinions.empty)] }

/-- Models `UsdReferences.AddReference`: append, deduplicating an identical
item. -/
def addRef (l : List Reference) (r : Reference) : List Reference :=
  if l.any (fun x => x = r) then l else l ++ [r]

/-- How a snapshotted reference is re-authored inside the default variant
(tier3.py lines 300-310): with its internal path when truthy, without one
otherwise. -/
def snapshotRef (r : Reference) : Reference :=
  ⟨r.assetPath, if strTruthy r.internalPath then r.internalPath else none⟩

/-- Update one prim of a stage in place (the Python code holds a live `prim`
handle into the open stage). -/
def modPrim : VStage → String → (VPrim → VPrim) → VStage
  | [], _, _ => []
  | (k, v) :: rest, path, f =>
    if k = path then (k, f v) :: modPrim rest path f
    else (k, v) :: modPrim rest path f

/-! ## The tier3 variant tool (tool_author_variants_in_file) -/

/-- The `xform` field of a variant definition: either a 4x4 matrix (a
4-element list of 4-element rows) or an ops array. -/
inductive XformArg
  | matrix (m : Matrix4)
  | opsList (l : List OpEntry)
deriving Repr

/-- Python truthiness of the `xform` field (an empty list/dict is falsy). -/
def xformTruthy : Option XformArg → Bool
  | some (.matrix _) => true
  | some (.opsList l) => !l.isEmpty
  | none => false

/-- One variant definition of the `variants` request array (or the one built
from the single-variant fields).  An absent field and a JSON `null` both read
back as falsy and are collapsed to `none`. -/
structure VariantDef where
  name : Option String
  variant : Option String
  assetPath : Option String
  internalPath : Option String
  materialPath : Option String
  xform : Option XformArg
  attributes : Option (List (String × PVal))
  references : Option (List RefDef)
deriving Repr

/-- Request parameters of `tool_author_variants_in_file`. -/
structure AVParams where
  path : String
  primPath : String
  setName : String
  variant : Option String
  variants : Option (List VariantDef)
  clearLocal : Bool
  select : Option String
  assetPath : Option String
  internalPath : Option String
  materialPath : Option String
  xform : Option XformArg
  attributes : Option (List (String × PVal))
deriving Repr

/-- Success payload of `tool_author_variants_in_file`. -/
structure AVOut where
  primPath : String
  setName : String
  variants : List String
  selection : Option String
deriving DecidableEq, Repr

/-- Python truthiness of the `variants` array (an empty array is falsy). -/
def varsTruthy : Option (List VariantDef) → Bool
  | some (_ :: _) => true
  | _ => false

/-- The normalization of tier3.py lines 192-209: batch mode passes the array
through; single mode builds one definition from the top-level fields. -/
def variantsToProcess (q : AVParams) : List VariantDef :=
  if varsTruthy q.variants then q.variants.getD []
  else if strTruthy q.variant then
    [{ name := q.variant, variant := none, assetPath := q.assetPath,
       internalPath := q.internalPath, materialPath := q.materialPath,
       xform := q.xform, attributes := q.attributes, references := none }]
  else []

/-- The variant name of a definition: `v.get("name") or v.get("variant") or ""`. -/
def defName (d : VariantDef) : String :=
  if strTruthy d.name then d.name.getD ""
  else if strTruthy d.variant then d.variant.getD ""
  else ""

/-- Python truthiness of an `attributes` dict (an empty dict is falsy). -/
def attrsTruthy : Option (List (String × PVal)) → Bool
  | some (_ :: _) => true
  | _ => false

/-- The loose entry parse of tier3.py lines 504-534: like the tier2 parse but
entries that match no supported kind are silently skipped. -/
def parseXformEntriesLoose : List OpEntry → TRS → TRS
  | [], acc => acc
  | e :: rest, acc =>
    let op := parseOpKey e.op
    if (op = "translate" ∨ op = "t") ∧ e.value.isSome then
      parseXformEntriesLoose rest { acc with translate := e.value }
    else if (op = "scale" ∨ op = "s") ∧ e.value.isSome then
      parseXformEntriesLoose rest { acc with scale := e.value }
    else if (op = "rotatexyz" ∨ op = "r") ∧ e.value.isSome then
      parseXformEntriesLoose rest { acc with rotate := e.value }
    else parseXformEntriesLoose rest acc

/-- The reference target of a definition (tier3.py lines 371-389): the direct
`asset_path`, else the first entry of a nested `references` array, which also
supplies the internal path when the definition itself does not. -/
def refTarget (d : VariantDef) : Option String × Option String :=
  if strTruthy d.assetPath then (d.assetPath, d.internalPath)
  else
    match d.references with
    | some (r0 :: _) =>
      (r0.assetPath,
       if strTruthy d.internalPath then d.internalPath else r0.internalPath)
    | _ => (none, d.internalPath)

/-- Reference step of the variant edit body (tier3.py 360-414). -/
def aveRefStep (lib : AssetLib) (stage : VStage) (primPath setName : String)
    (d : VariantDef) (varName : String) : Except ErrCode VStage :=
  let tgt := refTarget d
  if strTruthy tgt.1 then
    let asset := pyStrip (tgt.1.getD "")
    if asset = "" then .error .invalid_params
    else
      let internal0 := pyStrip (tgt.2.getD "")
      let internal0 := if internal0 = "/" then "" else internal0
      let internal :=
        if internal0 = "" then
          match lookupA lib asset with
          | some (some dp) => dp
          | _ => ""
        else internal0
      let r : Reference :=
        ⟨asset, if internal ≠ "" then some internal else none⟩
      .ok (modPrim stage primPath
        (fun p => updateVariant p setName varName
          (fun o => { o with refs := addRef o.refs r })))
  else .ok stage

/-- Material-binding step of the variant edit body (tier3.py 416-447). -/
def aveMatStep (stage : VStage) (primPath setName : String)
    (d : VariantDef) (varName : String) : Except ErrCode VStage :=
  if strTruthy d.materialPath then
    let mp := d.materialPath.getD ""
    match lookupA stage mp with
    | none => .error .not_found
    | some matPrim =>
      if !matPrim.isMaterialType then .error .invalid_params
      else
        .ok (modPrim stage primPath
          (fun p => updateVariant p setName varName
            (fun o => { o with binding := some mp })))
  else .ok stage

/-- Transform step of the variant edit body (tier3.py 449-520). -/
def aveXformStep (stage : VStage) (primPath setName : String)
    (d : VariantDef) (varName : String) : Except ErrCode VStage :=
  if xformTruthy d.xform then
    match lookupA stage primPath with
    | none => .error .not_found
    | some p =>
      if !p.xformable then .error .invalid_params
      else
        match d.xform with
        | some (.matrix m) =>
          .ok (modPrim stage primPath
            (fun p => updateVariant p setName varName
              (fun o => { o with matrixOp := some m })))
        | some (.opsList l) =>
          let trs := parseXformEntriesLoose l ⟨none, none, none⟩
          .ok (modPrim stage primPath
            (fun p => updateVariant p setName varName
              (fun o =>
                let o := match trs.translate with
                  | some v => { o with translate := some v }
                  | none => o
                let o := match trs.rotate with
                  | some v => { o with rotate := some v }
                  | none => o
                match trs.scale with
                | some v => { o with scale := some v }
                | none => o)))
        | none => .ok stage
  else .ok stage

/-- Attribute step of the variant edit body (tier3.py 522-560). -/
def aveAttrStep (stage : VStage) (primPath setName : String)
    (d : VariantDef) (varName : String) : Except ErrCode VStage :=
  if attrsTruthy d.attributes then
    .ok (modPrim stage primPath
      (fun p => updateVariant p setName varName
        (fun o =>
          let newAttrs :=
            (d.attributes.getD []).foldl
              (fun acc kv => upsertA acc kv.1 kv.2) o.attrs
          { o with attrs := newAttrs })))
  else .ok stage

/-- The per-variant authoring body of tier3.py lines 366-570 (the interior of
`with vset.GetVariantEditContext():` after `AddVariant` and
`SetVariantSelection` put `varName` in scope): author a reference, a material
binding, a transform and named attributes into the variant's isolated pool.
External-library failure of `AddReference`/`Bind`/`Set` itself is not
modelled; the deterministic error paths (empty normalized asset path,
material prim missing or not a material, prim not xformable) are. -/
def authorVariantEdits (lib : AssetLib) (stage : VStage) (primPath setName : String)
    (d : VariantDef) (varName : String) : Except ErrCode VStage :=
  match aveRefStep lib stage primPath setName d varName with
  | .error e => .error e
  | .ok stage =>
    match aveMatStep stage primPath setName d varName with
    | .error e => .error e
    | .ok stage =>
      match aveXformStep stage primPath setName d varName with
      | .error e => .error e
      | .ok stage => aveAttrStep stage primPath setName d varName

/-- The per-variant loop of tier3.py lines 340-577: skip nameless
definitions, add the variant, select it, author inside its edit scope, and
collect the created names; the first failing definition aborts the call. -/
def processDefs (lib : AssetLib) (primPath setName : String) :
    List VariantDef → VStage → List String → Except ErrCode (VStage × List String)
  | [], st, created => .ok (st, created)
  | d :: rest, st, created =>
    let vn := defName d
    if vn = "" then processDefs lib primPath setName rest st created
    else
      let st := modPrim st primPath
        (fun p => setSelection (addVariant p setName vn) setName vn)
      match authorVariantEdits lib st primPath setName d vn with
      | .error e => .error e
      | .ok st2 => processDefs lib primPath setName rest st2 (created ++ [vn])

/-- The clear-local pre-pass of tier3.py lines 237-279: clear the direct
opinions of every kind touched by some definition; references are cleared
here only when no default variant is about to be synthesized. -/
def clearLocalPass (stage : VStage) (primPath : String) (vds : List VariantDef)
    (shouldDefault : Bool) : VStage :=
  let hasAsset := vds.any (fun d => strTruthy d.assetPath)
  let hasMaterial := vds.any (fun d => strTruthy d.materialPath)
  let hasXform := vds.any (fun d => xformTruthy d.xform)
  let hasAttrs := vds.any (fun d => attrsTruthy d.attributes)
  let attrNames := vds.foldl
    (fun acc d => acc ++ (d.attributes.getD []).map Prod.fst) []
  modPrim stage primPath (fun p =>
    let p := if hasMaterial then { p with direct := { p.direct with binding := none } }
      else p
    let p := if hasXform && p.xformable then
        { p with direct := { p.direct with
            translate := none, rotate := none, scale := none, matrixOp := none } }
      else p
    let p := if hasAttrs then
        { p with direct := { p.direct with
            attrs := p.direct.attrs.filter (fun kv => !(attrNames.contains kv.1)) } }
      else p
    if hasAsset && !shouldDefault then { p with direct := { p.direct with refs := [] } }
    else p)

/-- The in-memory body of `tool_author_variants_in_file` (tier3.py lines
63-593, everything before the final save): validation, reference snapshot,
default-variant synthesis, clear-local, the per-variant loop and the final
selection.  Returns the mutated stage and the success payload or the error
of the first failing step. -/
def authorVariantsCore (lib : AssetLib) (q : AVParams) (stage0 : VStage) :
    Except ErrCode (VStage × AVOut) :=
  let path := pyStrip q.path
  if path = "" ∨ q.primPath = "" ∨ q.setName = "" then .error .invalid_params
  else if !(strTruthy q.variant) && !(varsTruthy q.variants) then .error .invalid_params
  else if strTruthy q.variant && varsTruthy q.variants then .error .invalid_params
  else
    match lookupA stage0 q.primPath with
    | none => .error .not_found
    | some prim0 =>
      let existingRefs := prim0.direct.refs
      let vds := variantsToProcess q
      let isNew := (getVSet prim0 q.setName).variants.isEmpty
      let hasDefault := vds.any (fun d => defName d = "default")
      let shouldDefault :=
        isNew && vds.any (fun d => strTruthy d.assetPath) && !hasDefault
      let stage1 := if q.clearLocal then
          clearLocalPass stage0 q.primPath vds shouldDefault
        else stage0
      let stage2 :=
        if shouldDefault then
          let st := modPrim stage1 q.primPath (fun p =>
            setSelection (addVariant p q.setName "default") q.setName "default")
          let st := existingRefs.foldl
            (fun acc r =>
              modPrim acc q.primPath (fun p =>
                updateVariant p q.setName "default"
                  (fun o => { o with refs := addRef o.refs (snapshotRef r) })))
            st
          if !existingRefs.isEmpty && q.clearLocal then
            modPrim st q.primPath
              (fun p => { p with direct := { p.direct with refs := [] } })
          else st
        else if hasDefault && !existingRefs.isEmpty && q.clearLocal then
          modPrim stage1 q.primPath
            (fun p => { p with direct := { p.direct with refs := [] } })
        else stage1
      match processDefs lib q.primPath q.setName vds stage2 [] with
      | .error e => .error e
      | .ok (stage3, created) =>
        let finalSel : Option String :=
          if strTruthy q.select then q.select
          else if shouldDefault then some "default"
          else if !created.isEmpty then some (created.getLastD "")
          else none
        let stage4 := match finalSel with
          | some sel => modPrim stage3 q.primPath
              (fun p => setSelection p q.setName sel)
          | none => stage3
        let allVariants :=
          if shouldDefault && !created.contains "default" then "default" :: created
          else created
        .ok (stage4, ⟨q.primPath, q.setName, allVariants, finalSel⟩)

/-- The tool `tool_author_variants_in_file`: run the in-memory body on the
opened document; persist by a single `root.Save()` at the end, which is the
only point at which the on-disk document changes. -/
def toolAuthorVariantsInFile (lib : AssetLib) (q : AVParams) (disk : VStage)
    (saveOk : Bool) : Except ErrCode AVOut × VStage :=
  match authorVariantsCore lib q disk with
  | .error e => (.error e, disk)
  | .ok r => if saveOk then (.ok r.2, r.1) else (.error .save_failed, disk)

/-! ## The tier0 batch attribute writer (tool_batch_set_attribute_values_in_file) -/

/-- One entry of the `items` request array (the optional `time` field selects
the single modelled time code and is omitted). -/
structure BatchItem where
  primPath : String
  attr : String
  value : PVal
deriving DecidableEq, Repr

/-- One per-item outcome record. -/
structure ItemResult where
  primPath : String
  attr : String
  ok : Bool
  err : Option String
deriving DecidableEq, Repr

/-- Index of the last occurrence of a character (`str.rfind`). -/
def lastIdxOf (c : Char) : List Char → Option ℕ
  | [] => none
  | x :: xs =>
    match lastIdxOf c xs with
    | some i => some (i + 1)
    | none => if x = c then some 0 else none

/-- Split at the first occurrence of a character (`str.split(c, 1)`); when the
character is absent the whole input is the first part. -/
def splitFirst (c : Char) : List Char → List Char × List Char
  | [] => ([], [])
  | x :: xs =>
    if x = c then ([], xs)
    else
      let r := splitFirst c xs
      (x :: r.1, r.2)

/-- The variant-suffix parse of tier0.py lines 503-517: a path of the form
`base.set:variant` (last dot before last colon, with at least one character
between them) is split into the base prim path and a (set, variant) pair. -/
def parseVariantSuffix (pp : String) : String × Option (String × String) :=
  let cs := pp.toList
  if cs.contains ':' && cs.contains '.' then
    match lastIdxOf '.' cs, lastIdxOf ':' cs with
    | some di, some ci =>
      if di < ci ∧ ci - di > 1 then
        let base := (cs.take di).asString
        let rest := cs.drop (di + 1)
        let sp := splitFirst ':' rest
        (base, some (sp.1.asString, sp.2.asString))
      else (pp, none)
    | _, _ => (pp, none)
  else (pp, none)

/-- The attribute-name alias of tier0.py lines 495-496. -/
def aliasAttr (a : String) : String :=
  if a = "displayColor" then "primvars:displayColor" else a

/-- The value coercion `_coerce` of tier0.py lines 480-488: a bare 3-vector
for displayColor becomes a one-element array of vectors. -/
def coerceVal (attr : String) (v : PVal) : PVal :=
  if attr = "primvars:displayColor" then
    match v with
    | .vec c => .vecArr c
    | _ => v
  else v

/-- The transform-shorthand block of tier0.py lines 558-584.  Returns `none`
when the block falls through without producing a result (a non-list value for
the translate/scale attribute names reaches the plain-set path below). -/
def shorthandStep (stage : VStage) (primPath attr : String) (v : PVal) :
    Option (VStage × ItemResult) :=
  if attr = "xformOp:translate" || attr = "xformOp:scale" ||
      (attr = "size" && v.isVec3) then
    if attr = "size" then
      match v with
      | .vec w =>
        some (modPrim stage primPath
            (fun p => { p with direct := { p.direct with scale := some w } }),
          ⟨primPath, "xformOp:scale", true, none⟩)
      | _ => none
    else if pyEndsWith attr "translate" then
      match v with
      | .vec w =>
        some (modPrim stage primPath
            (fun p => { p with direct := { p.direct with translate := some w } }),
          ⟨primPath, attr, true, none⟩)
      | .mat _ | .vecArr _ | .refList _ | .listOther =>
        some (stage, ⟨primPath, attr, false, some "exception"⟩)
      | _ => none
    else if pyEndsWith attr "scale" then
      match v with
      | .vec w =>
        some (modPrim stage primPath
            (fun p => { p with direct := { p.direct with scale := some w } }),
          ⟨primPath, attr, true, none⟩)
      | .mat _ | .vecArr _ | .refList _ | .listOther =>
        some (stage, ⟨primPath, attr, false, some "exception"⟩)
      | _ => none
    else none
  else none

/-- The reference-list replacement of tier0.py lines 612-639: clear, then
re-add each entry, resolving the referenced document's default prim when an
entry gives no internal path; entries without an asset path are skipped. -/
def replaceRefs (lib : AssetLib) (l : List RefDef) : List Reference :=
  l.foldl
    (fun acc r =>
      let asset := pyStrip (r.assetPath.getD "")
      let internal := pyStrip (r.internalPath.getD "")
      let internal := if internal = "/" then "" else internal
      if asset = "" then acc
      else
        let internal :=
          if internal = "" then
            match lookupA lib asset with
            | some (some dp) => dp
            | _ => ""
          else internal
        addRef acc ⟨asset, if internal ≠ "" then some internal else none⟩)
    []

/-- The routing after the transform shorthands (tier0.py lines 586-646): the
matrix-op edit, the reference-list replacement, then the plain attribute set
with light coercion (`prim` is the handle fetched before the variant-suffix
handling; only its attribute list is read here). -/
def dispatchEdit (lib : AssetLib) (stage : VStage) (prim : VPrim)
    (primPath rawPP attr : String) (v0 : PVal) : VStage × ItemResult :=
  match shorthandStep stage primPath attr v0 with
  | some r => r
  | none =>
    if attr = "xformOp:transform" ∧ v0.isList then
      match v0 with
      | .mat m =>
        (modPrim stage primPath
            (fun p => { p with direct := { p.direct with matrixOp := some m } }),
          ⟨rawPP, attr, true, none⟩)
      | _ => (stage, ⟨rawPP, attr, false, some "exception"⟩)
    else if attr = "references" ∧ v0.isList then
      match v0 with
      | .refList l =>
        (modPrim stage primPath
            (fun p => { p with direct :=
              { p.direct with refs := replaceRefs lib l } }),
          ⟨rawPP, attr, true, none⟩)
      | _ => (stage, ⟨rawPP, attr, false, some "exception"⟩)
    else
      let v := coerceVal attr v0
      if (lookupA prim.direct.attrs attr).isSome then
        (modPrim stage primPath
            (fun p => { p with direct :=
              { p.direct with attrs := setIfPresent p.direct.attrs attr v } }),
          ⟨rawPP, attr, true, none⟩)
      else (stage, ⟨rawPP, attr, false, some "exception"⟩)

/-- One iteration of the item loop of tier0.py lines 490-648.  When the item
carries a `base.set:variant` suffix the set and variant are created, but the
context manager returned by `GetVariantEditContext()` is only constructed,
never entered (there is no `with` and `__enter__` is never called), so the
edit itself still lands in the prim's direct opinions. -/
def processItem (lib : AssetLib) (stage : VStage) (it : BatchItem) :
    VStage × ItemResult :=
  let rawPP := pyStrip it.primPath
  let attr := aliasAttr (pyStrip it.attr)
  if rawPP = "" ∨ attr = "" then
    (stage, ⟨rawPP, attr, false, some "missing prim_path or attr"⟩)
  else
    let pv := parseVariantSuffix rawPP
    let primPath := pv.1
    match lookupA stage primPath with
    | none => (stage, ⟨rawPP, attr, false, some "prim not found"⟩)
    | some prim =>
      if attr = "variantSets" ∨ pyEndsWith attr ":variantSelection" then
        (stage, ⟨rawPP, attr, false, some "use authorVariantsInFile/setVariantFile"⟩)
      else
        let stage := match pv.2 with
          | some sv => modPrim stage primPath (fun p => addVariant p sv.1 sv.2)
          | none => stage
        dispatchEdit lib stage prim primPath rawPP attr it.value

/-- The item loop: thread the stage left to right, collecting one result per
item. -/
def batchRun (lib : AssetLib) (stage : VStage) :
    List BatchItem → VStage × List ItemResult
  | [] => (stage, [])
  | it :: rest =>
    let r := processItem lib stage it
    let t := batchRun lib r.1 rest
    (t.1, r.2 :: t.2)

/-- Success payload of `tool_batch_set_attribute_values_in_file`. -/
structure BatchOut where
  results : List ItemResult
  outputPath : String
deriving DecidableEq, Repr

/-- The tool `tool_batch_set_attribute_values_in_file` (tier0.py lines
457-653): validate, open the document, process every item independently,
then persist the whole batch with a single save. -/
def toolBatchSetAttrs (lib : AssetLib) (path : String) (items : List BatchItem)
    (disk : VStage) (saveOk : Bool) : Except ErrCode BatchOut × VStage :=
  let path := pyStrip path
  if path = "" then (.error .invalid_params, disk)
  else if items.isEmpty then (.error .invalid_params, disk)
  else
    let r := batchRun lib disk items
    if saveOk then (.ok ⟨r.2, path⟩, r.1) else (.error .save_failed, disk)

/-! ## The tier3 composition assembler (tool_compose_referenced_assembly) -/

/-- A prim of the assembly stage. -/
structure PrimC where
  typeName : String
  refs : List Reference
deriving DecidableEq, Repr

/-- The assembly stage: prims by path, the declared up axis, the default
prim. -/
structure StageC where
  prims : List (String × PrimC)
  upAxis : String
  defaultPrim : Option String
deriving DecidableEq, Repr

/-- One entry of the `assets` request array.  The `internalPath` field keeps
the Python three-state reading: field absent (`none`), field present with
JSON null (`some none`), field present with a string (`some (some s)`). -/
structure AssetIn where
  assetPath : Option String
  name : Option String
  internalPath : Option (Option String)
deriving Repr

/-- Request parameters of `tool_compose_referenced_assembly`. -/
structure ComposeParams where
  outputPath : String
  assets : List AssetIn
  containerRoot : Option String
  flatten : Bool
  upAxis : Option String
  setDefaultPrim : Bool
  skipIfExists : Bool
  clearExisting : Bool
deriving Repr

/-- Success payload of `tool_compose_referenced_assembly`. -/
structure ComposeOut where
  combinedPath : String
  referenced : ℕ
deriving DecidableEq, Repr

/-- Python `os.path.basename`: the part after the last slash. -/
def pyBasename (p : String) : String :=
  ((splitChar '/' p.toList).getLastD []).asString

/-- The root part of Python `os.path.splitext` on a slash-free name: cut at
the last dot, except when every character before it is a dot (so a pure
leading-dot name like `.usda` keeps its dot and has no extension). -/
def pySplitextRoot (b : String) : String :=
  let cs := b.toList
  match lastIdxOf '.' cs with
  | none => b
  | some i => if (cs.take i).any (fun c => c ≠ '.') then (cs.take i).asString else b

/-- `_basename_noext` of tier3.py lines 1245-1248 (also used for the
container-root derivation): basename without extension. -/
def basenameNoExt (p : String) : String :=
  pySplitextRoot (pyBasename p)

/-- Python `s.rstrip("/")`. -/
def rstripSlash (s : String) : String :=
  ((s.toList.reverse.dropWhile (fun c => c = '/')).reverse).asString

/-- `container_root.rstrip("/").split("/")[-1]` of tier3.py line 1450. -/
def leafName (s : String) : String :=
  pyBasename (rstripSlash s)

/-- Python `os.path.dirname` on an absolute path. -/
def dirName (p : String) : String :=
  (joinChar '/' ((splitChar '/' p.toList).dropLast)).asString

/-- The container-root derivation of tier3.py lines 1203-1213: when the
caller omits `container_root` (or leaves any falsy value) or passes the
generic sentinel `/Assets`, derive `/` + basename-without-extension of the
output path, falling back to `/Assets` when that basename is empty; any
other explicit value is used verbatim. -/
def deriveContainerRoot (outputPath : String) (containerRootParam : Option String) :
    String :=
  if !(strTruthy containerRootParam) || containerRootParam = some "/Assets" then
    let nm := basenameNoExt outputPath
    if nm ≠ "" then "/" ++ nm else "/Assets"
  else containerRootParam.getD ""

/-- Models `stage.GetPrimAtPath` + conditional `stage.DefinePrim(path, ty)`:
create the prim when absent, keep it otherwise.  (Automatic creation of
missing ancestor prims is not tracked; the paths the claims exercise are one
or two levels deep under the root.) -/
def definePrim (st : StageC) (path ty : String) : StageC :=
  match lookupA st.prims path with
  | some _ => st
  | none => { st with prims := st.prims ++ [(path, ⟨ty, []⟩)] }

/-- Author a reference on the prim at `path` (which exists at every call
site). -/
def addRefToPrim (st : StageC) (path : String) (r : Reference) : StageC :=
  let f : String × PrimC → String × PrimC := fun kv =>
    if kv.1 = path then (kv.1, { kv.2 with refs := addRef kv.2.refs r }) else kv
  { st with prims := st.prims.map f }

/-- Whether an asset path names a packaged archive (`.usdz`). -/
def isUsdz (s : String) : Bool :=
  pyEndsWith (pyLower s) ".usdz"

/-- The per-asset name of tier3.py lines 1270-1272:
`(a.get("name") or _basename_noext(src)).strip() or _basename_noext(src)`. -/
def assetName (a : AssetIn) (src : String) : String :=
  let first := if strTruthy a.name then a.name.getD "" else basenameNoExt src
  if pyStrip first ≠ "" then pyStrip first else basenameNoExt src

/-- The wrapper path of tier3.py lines 1450-1454: `containerRoot/<name>`,
collapsed to `containerRoot` itself when the name equals the container
root's final path component. -/
def wrapperPathFor (containerRoot name : String) : String :=
  if name = leafName containerRoot then containerRoot
  else rstripSlash containerRoot ++ "/" ++ name

/-- The child prim name of tier3.py lines 1462-1474: the referenced
document's default-prim name, else the asset's filename without extension,
else `asset`. -/
def refPrimNameFor (lib : AssetLib) (refPathForOpen refPathForRef : String) :
    String :=
  let fromDefault :=
    match lookupA lib refPathForOpen with
    | some (some dp) => pyBasename dp
    | _ => ""
  if fromDefault ≠ "" then fromDefault
  else
    let b := basenameNoExt refPathForRef
    if b ≠ "" then b else "asset"

/-- The internal-path resolution of tier3.py lines 1273-1282 and 1432-1443:
explicit null means no internal path; an empty or `/` value resolves through
the referenced document's default prim (ending with no internal path when
that fails); any other value is used verbatim after stripping. -/
def resolveInternalFor (lib : AssetLib) (refPathForOpen : String)
    (ip : Option (Option String)) : Option String :=
  match ip with
  | some none => none
  | _ =>
    let s := match ip with
      | some (some s0) => if s0 ≠ "" then pyStrip s0 else ""
      | _ => ""
    if s = "" ∨ s = "/" then
      match lookupA lib refPathForOpen with
      | some (some dp) => if dp ≠ "" then some dp else none
      | _ => none
    else some s

/-- The placement topology of tier3.py lines 1445-1500: layout compositions
(more than one asset) get a wrapper prim with a child carrying the
reference; single-asset compositions carry the reference on the wrapper path
itself. -/
def placeAsset (lib : AssetLib) (st : StageC) (isLayout : Bool)
    (containerRoot name refPathForOpen refPathForRef : String)
    (internal : Option String) : StageC :=
  let wrapperPath := wrapperPathFor containerRoot name
  if isLayout then
    let st := definePrim st wrapperPath "Xform"
    let childPath :=
      rstripSlash wrapperPath ++ "/" ++ refPrimNameFor lib refPathForOpen refPathForRef
    let st := definePrim st childPath "Xform"
    addRefToPrim st childPath ⟨refPathForRef, internal⟩
  else
    let st := definePrim st wrapperPath "Xform"
    addRefToPrim st wrapperPath ⟨refPathForRef, internal⟩

/-- The asset loop of tier3.py lines 1254-1502.  The usdz flatten/export
sub-step (lines 1284-1430) re-writes sibling files on the host filesystem
and is outside this embedding; a run that enters it stops with the marker
error `export_failed`, and every theorem below excludes such runs by
hypothesis.  Assets without a usable path are skipped without counting. -/
def composeLoop (lib : AssetLib) (flatten isLayout : Bool)
    (containerRoot outputDir : String) :
    List AssetIn → StageC → ℕ → Except ErrCode (StageC × ℕ)
  | [], st, n => .ok (st, n)
  | a :: rest, st, n =>
    let src := pyStrip (a.assetPath.getD "")
    if src = "" then composeLoop lib flatten isLayout containerRoot outputDir rest st n
    else
      let resolved := if pyStartsWith src "/" then src else outputDir ++ "/" ++ src
      if flatten && (isUsdz src || isUsdz resolved) then .error .export_failed
      else
        let name := assetName a src
        let internal := resolveInternalFor lib resolved a.internalPath
        let st := placeAsset lib st isLayout containerRoot name resolved src internal
        composeLoop lib flatten isLayout containerRoot outputDir rest st (n + 1)

/-- The tool `tool_compose_referenced_assembly` (tier3.py lines 1176-1515):
validate, derive the container root, open or create the output stage
(`existingOut` is the on-disk stage at the output path, `none` when the file
does not exist), optionally clear existing roots and update the up axis,
ensure the container root, run the asset loop, optionally set the default
prim, and save. -/
def toolComposeAssembly (lib : AssetLib) (q : ComposeParams)
    (existingOut : Option StageC) (saveOk : Bool) :
    Except ErrCode ComposeOut × Option StageC :=
  let outputPath := pyStrip q.outputPath
  if outputPath = "" then (.error .invalid_params, existingOut)
  else if q.assets.isEmpty then (.error .invalid_params, existingOut)
  else
    let containerRoot := deriveContainerRoot outputPath q.containerRoot
    let axisOf : String → String := fun ua =>
      if pyStartsWith (pyUpper ua) "Z" then "Z" else "Y"
    let stage0 := match existingOut with
      | some st =>
        let st := if q.clearExisting then { st with prims := [] } else st
        match q.upAxis with
        | some ua => { st with upAxis := axisOf ua }
        | none => st
      | none =>
        let ax := match q.upAxis with | none => "Z" | some ua => axisOf ua
        { prims := [], upAxis := ax, defaultPrim := none }
    let stage0 := definePrim stage0 containerRoot "Xform"
    let outputDir := dirName outputPath
    let isLayout := q.assets.length > 1
    match composeLoop lib q.flatten isLayout containerRoot outputDir q.assets stage0 0 with
    | .error e => (.error e, existingOut)
    | .ok (st, n) =>
      let st := if q.setDefaultPrim then
          if (lookupA st.prims containerRoot).isSome then
            { st with defaultPrim := some containerRoot }
          else st
        else st
      if saveOk then (.ok ⟨outputPath, n⟩, some st)
      else (.error .save_failed, existingOut)

/-! ## Accessors used by the theorem statements -/

/-- The values carried by the scale ops of an op list (a valueless scale op
contributes nothing). -/
def authoredScaleValues (l : List XOp) : List XVal :=
  l.filterMap (fun o => if o.ty = XOpType.scale then o.value else none)

/-- Whether an op list contains a scale op at all. -/
def hasScaleOp (l : List XOp) : Bool :=
  l.any (fun o => o.ty = XOpType.scale)

/-- The reference list authored inside variant `v` of set `s` on a prim
(`none` when the variant does not exist). -/
def variantRefs (p : VPrim) (s v : String) : Option (List Reference) :=
  (lookupA (getVSet p s).variants v).map (fun o => o.refs)

/-- The opinion pool authored inside variant `v` of set `s` on a prim. -/
def variantPool (p : VPrim) (s v : String) : Option VOpinions :=
  lookupA (getVSet p s).variants v

/-- The selection of set `s` on a prim. -/
def selectionOf (p : VPrim) (s : String) : Option String :=
  (getVSet p s).selection

/-- Whether a batch item is well-formed but addresses a prim absent from the
stage (the per-item not-found case of the claims). -/
def itemMissingB (st : VStage) (it : BatchItem) : Bool :=
  pyStrip it.primPath ≠ "" && aliasAttr (pyStrip it.attr) ≠ "" &&
    (lookupA st (parseVariantSuffix (pyStrip it.primPath)).1).isNone

/-- The direct reference list and the default-variant pool of set `s` on the
prim at `pp` (the observation the default-preservation theorem tracks). -/
def defaultObs (st : VStage) (pp s : String) :
    Option (List Reference × Option VOpinions) :=
  (lookupA st pp).map (fun p => (p.direct.refs, variantPool p s "default"))

/-! ## Concrete inputs used by the closed theorems -/

/-- A cube prim with a geometric `size` attribute and no ops. -/
def exCube : TPrim := ⟨"Cube", [("size", 2)], [], false, none⟩

/-- A clean sphere prim: `radius` attribute, no ops, no references. -/
def exSphere : TPrim := ⟨"Sphere", [("radius", 1)], [], false, none⟩

/-- A sphere prim with authored references through which a composed
`xformOp:scale` value (3,3,3) is visible, while no scale op appears in the
composed op order (the referenced layer authors the attribute but not the
order). -/
def exSphereRef : TPrim := ⟨"Sphere", [("radius", 1)], [], true, some ⟨3, 3, 3⟩⟩

/-- A translation matrix (clearly not identity-like). -/
def exM5 : Matrix4 := ⟨1, 0, 0, 5, 0, 1, 0, 0, 0, 0, 1, 0, 0, 0, 0, 1⟩

/-- A SetTransform request that supplies both `matrix` and `ops`. -/
def exBothParams : SetXformParams :=
  ⟨"/tmp/s.usda", "/World/Cube", some exM5, some [⟨"translate", some ⟨1, 2, 3⟩⟩]⟩

/-- A one-cube stage for the tier2 examples. -/
def exTStage : TStage := [("/World/Cube", exCube)]

/-- An op list whose first matrix-type op has no value at the queried time
code and whose second carries a non-identity matrix. -/
def exOpsValueless : List XOp :=
  [⟨.transform, none⟩, ⟨.transform, some (.m4 exM5)⟩]

/-- The pre-existing direct reference of the variant examples. -/
def exRefA : Reference := ⟨"/assets/A.usda", none⟩

/-- A prim carrying a direct reference to asset A and no variant sets. -/
def exChair : VPrim := ⟨⟨[exRefA], none, none, none, none, none, []⟩, [], false, true⟩

/-- A one-prim stage for the variant examples. -/
def exVStage : VStage := [("/World/Chair", exChair)]

/-- A variant definition authoring a reference to asset B, not named
`default`. -/
def exDefB : VariantDef :=
  ⟨some "b", none, some "/assets/B.usda", none, none, none, none, none⟩

/-- The AuthorVariants request of the C1 scenario, parameterized by
`clear_local`. -/
def exAVParams (clearLocal : Bool) : AVParams :=
  ⟨"/tmp/doc.usda", "/World/Chair", "modelVariant", none, some [exDefB],
   clearLocal, none, none, none, none, none, none⟩

/-- An AuthorVariants request whose variant definition binds a material that
does not exist on the stage (a deterministic mid-processing failure). -/
def exAVParamsBadMat : AVParams :=
  ⟨"/tmp/doc.usda", "/World/Chair", "look", none,
   some [⟨some "m", none, none, none, some "/Materials/Missing", none, none, none⟩],
   true, none, none, none, none, none, none⟩

/-- A prim with two plain attributes, for the batch examples. -/
def exBoxPrim : VPrim :=
  ⟨⟨[], none, none, none, none, none, [("mass", .num 1), ("label", .str "a")]⟩,
   [], false, true⟩

/-- The two-prim stage of the batch examples (no prim at `/World/B`). -/
def exBStage : VStage := [("/World/A", exBoxPrim), ("/World/C", exBoxPrim)]

/-- The three-item batch of the C4 scenario: items 1 and 3 valid, item 2
targeting the nonexistent `/World/B`. -/
def exItems3 : List BatchItem :=
  [⟨"/World/A", "mass", .num 2⟩, ⟨"/World/B", "mass", .num 3⟩,
   ⟨"/World/C", "label", .str "z"⟩]

/-- The variant-suffixed batch item of the C10 scenario. -/
def exItemSuffix : BatchItem := ⟨"/World/A.look:red", "mass", .num 5⟩

/-- The compose request of the C8 counterexample: a single asset whose
derived name (`Box`) equals the final component of the explicitly supplied
container root `/Box`. -/
def exComposeCollide : ComposeParams :=
  ⟨"/tmp/out.usda", [⟨some "/lib/Box.usda", none, none⟩], some "/Box", true,
   none, true, true, false⟩

/-- The asset library of the compose examples. -/
def exComposeLib : AssetLib :=
  [("/lib/Box.usda", some "/BoxRoot"), ("/lib/Chair.usda", some "/ChairRoot")]

/-- A two-asset layout compose request (container root left at its default). -/
def exComposeLayout : ComposeParams :=
  ⟨"/tmp/out.usda",
   [⟨some "/lib/Chair.usda", none, none⟩, ⟨some "/lib/Table.usda", none, none⟩],
   none, true, none, true, true, false⟩

/-- The reference to asset B authored by the `b` variant definition. -/
def exRefB : Reference := ⟨"/assets/B.usda", none⟩

/-- The payload returned by the C1 scenario with `clear_local` true. -/
def exC1Out : AVOut :=
  ⟨"/World/Chair", "modelVariant", ["default", "b"], some "default"⟩

/-- The stage produced by the C1 scenario with `clear_local` true. -/
def exC1Stage : VStage :=
  [("/World/Chair",
    ⟨⟨[], none, none, none, none, none, []⟩,
     [("modelVariant",
       ⟨[("default", ⟨[exRefA], none, none, none, none, none, []⟩),
         ("b", ⟨[exRefB], none, none, none, none, none, []⟩)],
        some "default"⟩)],
     false, true⟩)]


/-- The reference the loop authors for one asset (tier3.py: `AddReference(ref_path_for_ref, internal_path?)`). -/
def placedRefFor (lib : AssetLib) (outputDir : String) (a : AssetIn) : Reference :=
  let src := pyStrip (a.assetPath.getD "")
  let resolved := if pyStartsWith src "/" then src else outputDir ++ "/" ++ src
  ⟨src, resolveInternalFor lib resolved a.internalPath⟩

/-- The path at which the loop authors one asset's reference: the wrapper
path for single-asset runs, the wrapper's child for layout runs
(tier3.py lines 1445-1488). -/
def placedPathFor (lib : AssetLib) (isLayout : Bool)
    (containerRoot outputDir : String) (a : AssetIn) : String :=
  let src := pyStrip (a.assetPath.getD "")
  let resolved := if pyStartsWith src "/" then src else outputDir ++ "/" ++ src
  let name := assetName a src
  let wp := wrapperPathFor containerRoot name
  if isLayout then rstripSlash wp ++ "/" ++ refPrimNameFor lib resolved src
  else wp

/-- The stage produced by the two-asset layout compose example. -/
def exC8St : StageC :=
  ⟨[("/out", ⟨"Xform", []⟩), ("/out/Chair", ⟨"Xform", []⟩),
    ("/out/Chair/ChairRoot", ⟨"Xform", [⟨"/lib/Chair.usda", some "/ChairRoot"⟩]⟩),
    ("/out/Table", ⟨"Xform", []⟩),
    ("/out/Table/Table", ⟨"Xform", [⟨"/lib/Table.usda", none⟩]⟩)],
   "Z", some "/out"⟩


/-! ## Theorems -/

/-! ### Helper lemmas for the tier2 theorems -/

theorem lookupA_setIfPresent_self {α : Type} (l : List (String × α)) (k : String) (v : α)
    (h : (lookupA l k).isSome = true) :
    lookupA (setIfPresent l k v) k = some v := by
  induction l with
  | nil => simp [lookupA] at h
  | cons kv rest ih =>
    by_cases hk : kv.1 = k
    · simp [setIfPresent, lookupA, hk]
    · simp [setIfPresent, lookupA, hk] at h ⊢
      exact ih h

theorem authoredScaleValues_caSet (t : XOpType) (v : Vec3) (l : List XOp)
    (ht : t ≠ XOpType.scale) :
    authoredScaleValues (caSet t v l) = authoredScaleValues l := by
  induction l with
  | nil => simp [caSet, authoredScaleValues, ht]
  | cons o rest ih =>
    by_cases ho : o.ty = t
    · simp [caSet, ho, authoredScaleValues, List.filterMap_cons, ht, ho ▸ ht]
    · by_cases hr : caRank t < caRank o.ty
      · simp [caSet, ho, hr, authoredScaleValues, List.filterMap_cons, ht]
      · simp [caSet, ho, hr, authoredScaleValues, List.filterMap_cons] at ih ⊢
        rw [ih]

theorem hasScaleOp_caSet (t : XOpType) (v : Vec3) (l : List XOp)
    (ht : t ≠ XOpType.scale) :
    hasScaleOp (caSet t v l) = hasScaleOp l := by
  induction l with
  | nil => simp [caSet, hasScaleOp, ht]
  | cons o rest ih =>
    by_cases ho : o.ty = t
    · simp [caSet, ho, hasScaleOp, ht, ho ▸ ht]
    · by_cases hr : caRank t < caRank o.ty
      · simp [caSet, ho, hr, hasScaleOp, ht]
      · simp [caSet, ho, hr, hasScaleOp] at ih ⊢
        rw [ih]

theorem authoredScaleValues_filter_keep (a b c d : Bool) (rs : Option Vec3) (l : List XOp) :
    authoredScaleValues (l.filter (keepOp a b c d rs)) = authoredScaleValues l := by
  induction l with
  | nil => rfl
  | cons o rest ih =>
    rcases o with ⟨ty, val⟩
    simp only [authoredScaleValues] at ih ⊢
    cases ty <;> cases val <;>
      simp only [List.filter_cons, keepOp] <;>
      split_ifs <;> simp_all [List.filterMap_cons]

theorem mem_caSet_self (t : XOpType) (v : Vec3) (l : List XOp) :
    (⟨t, some (.v3 v)⟩ : XOp) ∈ caSet t v l := by
  induction l with
  | nil => simp [caSet]
  | cons o rest ih =>
    by_cases ho : o.ty = t
    · simp [caSet, ho]
    · by_cases hr : caRank t < caRank o.ty
      · simp [caSet, ho, hr]
      · simp [caSet, ho, hr, ih]



/-- Claim C3 (counterexample): a SetTransform call that supplies BOTH
`matrix` and `ops` does not fail with invalid-parameters; the matrix branch
wins, the call succeeds and authors the matrix, ignoring `ops`. -/
theorem C3_counterexample :
    exBothParams.matrix.isSome = true ∧ opsTruthy exBothParams.ops = true ∧
    (toolSetXformInFile exBothParams exTStage true).1 = .ok ⟨"/tmp/s.usda"⟩ ∧
    (toolSetXformInFile exBothParams exTStage true).2 =
      [("/World/Cube",
        { exCube with ops := [⟨.transform, some (.m4 exM5)⟩] })] := by
  refine ⟨rfl, rfl, rfl, rfl⟩

/-- Claim C3 (amended): for an otherwise-valid SetTransform call, supplying
neither `matrix` nor a non-empty `ops` fails with invalid-parameters, while
supplying both does not error: the call behaves exactly as if only `matrix`
had been supplied (the `ops` field is ignored). -/
theorem C3_matrix_ops_exclusivity (q : SetXformParams) (disk : TStage) (saveOk : Bool)
    (hpath : pyStrip q.path ≠ "") (hprim : pyStrip q.primPath ≠ "")
    (hex : (lookupA disk (pyStrip q.primPath)).isSome = true) :
    (q.matrix = none → opsTruthy q.ops = false →
      (toolSetXformInFile q disk saveOk).1 = .error .invalid_params) ∧
    (∀ m, q.matrix = some m →
      toolSetXformInFile q disk saveOk =
        toolSetXformInFile { q with ops := none } disk saveOk) := by
  obtain ⟨p, hp⟩ := Option.isSome_iff_exists.mp hex
  constructor
  · intro hm ho
    unfold toolSetXformInFile
    simp only [hp, hm]
    rw [if_neg (by simp [hpath, hprim])]
    rcases hops : q.ops with _ | l
    · simp [hops]
    · rcases l with _ | ⟨e, es⟩
      · simp [hops]
      · rw [hops] at ho; simp [opsTruthy] at ho
  · intro m hm
    unfold toolSetXformInFile
    simp only [hm]

/-- Witness for C3_matrix_ops_exclusivity at a concrete valid call. -/
theorem C3_matrix_ops_exclusivity_witness :
    (toolSetXformInFile ⟨"/tmp/s.usda", "/World/Cube", none, none⟩ exTStage true).1 =
      .error .invalid_params :=
  (C3_matrix_ops_exclusivity ⟨"/tmp/s.usda", "/World/Cube", none, none⟩ exTStage true
    (by decide) (by decide) (by decide)).1 rfl rfl


/-- Lemma: applyCommonOps never touches attributes. -/
theorem applyCommonOps_attrs (trs : TRS) (p : TPrim) :
    (applyCommonOps trs p).attrs = p.attrs := by
  unfold applyCommonOps
  rcases trs.translate <;> rcases trs.rotate <;> rcases trs.scale <;> rfl

/-- Lemma: applyCommonOps keeps the reference fields. -/
theorem applyCommonOps_fields (trs : TRS) (p : TPrim) :
    (applyCommonOps trs p).typeName = p.typeName ∧
    (applyCommonOps trs p).hasAuthoredReferences = p.hasAuthoredReferences ∧
    (applyCommonOps trs p).refScale = p.refScale := by
  unfold applyCommonOps
  rcases trs.translate <;> rcases trs.rotate <;> rcases trs.scale <;> exact ⟨rfl, rfl, rfl⟩

/-- Lemma: with no scale supplied, applyCommonOps preserves the valued scale
ops and the absence of scale ops. -/
theorem applyCommonOps_noscale (trs : TRS) (p : TPrim) (hs : trs.scale = none) :
    authoredScaleValues (applyCommonOps trs p).ops = authoredScaleValues p.ops ∧
    hasScaleOp (applyCommonOps trs p).ops = hasScaleOp p.ops := by
  unfold applyCommonOps
  rw [hs]
  rcases htr : trs.translate with _ | v <;> rcases hro : trs.rotate with _ | w <;>
    simp only [] <;>
    constructor <;>
    simp [authoredScaleValues_caSet, hasScaleOp_caSet]

/-- Lemma: a list without scale ops keeps that property under filtering. -/
theorem hasScaleOp_filter (q : XOp → Bool) (l : List XOp)
    (h : hasScaleOp l = false) : hasScaleOp (l.filter q) = false := by
  simp only [hasScaleOp, List.any_eq_false] at h ⊢
  intro o ho
  exact h o (List.mem_of_mem_filter ho)

/-- Lemma: with no local scale op and no reference scale, the composed
`xformOp:scale` attribute has no value. -/
theorem scaleAttrValue_none (p : TPrim) (h : hasScaleOp p.ops = false)
    (hr : p.refScale = none) : scaleAttrValue p = none := by
  unfold scaleAttrValue
  cases hf : p.ops.find? (fun o => o.ty = XOpType.scale) with
  | none => simp [hr]
  | some o =>
    have hm := List.mem_of_find?_eq_some hf
    have hp := List.find?_some hf
    simp only [hasScaleOp, List.any_eq_false] at h
    exact absurd hp (h o hm)

/-- Lemma: rebuildXform never touches attributes or the type name. -/
theorem rebuildXform_attrs (trs : TRS) (p : TPrim) :
    (rebuildXform trs p).attrs = p.attrs ∧
    (rebuildXform trs p).typeName = p.typeName := by
  simp only [rebuildXform]
  split_ifs <;> exact ⟨rfl, rfl⟩

/-- Lemma: a trailing valueless scale op contributes no scale value. -/
theorem scaleValues_append_valueless (l : List XOp) :
    authoredScaleValues (l ++ [⟨.scale, none⟩]) = authoredScaleValues l := by
  simp [authoredScaleValues, List.filterMap_append]

/-- Lemma: rebuildXform preserves the multiset of valued scale ops. -/
theorem rebuildXform_scaleValues (trs : TRS) (p : TPrim) :
    authoredScaleValues (rebuildXform trs p).ops = authoredScaleValues p.ops := by
  simp only [rebuildXform]
  split_ifs with h1 h2 h3
  · rfl
  · simp only [scaleValues_append_valueless, authoredScaleValues_filter_keep]
  · rfl
  · simp only [authoredScaleValues_filter_keep]

/-- Lemma: a prim without scale ops and without a reference scale still has
no scale op after the rebuild. -/
theorem rebuildXform_noscale (trs : TRS) (p : TPrim)
    (h : hasScaleOp p.ops = false) (hr : p.refScale = none) :
    hasScaleOp (rebuildXform trs p).ops = false := by
  have hsv := scaleAttrValue_none p h hr
  simp only [rebuildXform, hsv, Option.isSome_none, Bool.and_false,
    Bool.false_and, Bool.false_eq_true, if_false]
  split_ifs
  · exact h
  · exact hasScaleOp_filter _ _ h

/-- Claim C5 (counterexample): on a sphere-type node that has authored
references exposing a composed reference scale, a SetTransform ops-form call
supplying scale [4,4,4] still sets radius = 2.0 — but it DOES author an
xform-scale op on the node: the reference-preservation step creates a fresh
(valueless) scale op and writes it into the rebuilt op order, contradicting
the claim that no xform-scale op is authored. -/
theorem C5_counterexample :
    exSphereRef.typeName = "Sphere" ∧ hasScaleOp exSphereRef.ops = false ∧
    (setXformOps exSphereRef [⟨"scale", some ⟨4, 4, 4⟩⟩]).toOption =
      some ⟨"Sphere", [("radius", 2)], [⟨.scale, none⟩], true, some ⟨3, 3, 3⟩⟩ ∧
    hasScaleOp [(⟨.scale, none⟩ : XOp)] = true := by
  refine ⟨rfl, rfl, by decide, rfl⟩

/-- Lemma: the shape of a successful ops-form call. -/
theorem setXformOps_ok (p : TPrim) (entries : List OpEntry) (trs : TRS)
    (h : parseXformEntries entries ⟨none, none, none⟩ = .ok trs) :
    setXformOps p entries =
      .ok (rebuildXform (redirectScale p trs).2
        (applyCommonOps (redirectScale p trs).2 (redirectScale p trs).1)) := by
  unfold setXformOps
  rw [h]

/-- Claim C5 (amended): on a sphere-type node (with its `radius` attribute)
whose parsed ops supply a scale value s, the call sets radius = s.x × 0.5,
never authors the supplied scale as a scale-op value (the multiset of valued
scale ops is unchanged), and when the node has no pre-existing scale op and
no reference-composed scale, no xform-scale op appears afterwards; a
reference-composed scale is instead preserved in the rebuilt op order. -/
theorem C5_sphere_scale_redirect (p : TPrim) (entries : List OpEntry) (trs : TRS)
    (s : Vec3)
    (hty : p.typeName = "Sphere")
    (hcompat : caCompatible p.ops = true)
    (hrad : (lookupA p.attrs "radius").isSome = true)
    (hparse : parseXformEntries entries ⟨none, none, none⟩ = .ok trs)
    (hs : trs.scale = some s) :
    ∃ p2, setXformOps p entries = .ok p2 ∧
      lookupA p2.attrs "radius" = some (s.x * qHalf) ∧
      authoredScaleValues p2.ops = authoredScaleValues p.ops ∧
      (hasScaleOp p.ops = false → p.refScale = none → hasScaleOp p2.ops = false) := by
  have hred : redirectScale p trs =
      ({ p with attrs := setIfPresent p.attrs "radius" (s.x * qHalf) },
       { trs with scale := none }) := by
    unfold redirectScale
    rw [hs, hty]
    simp
  rw [setXformOps_ok p entries trs hparse, hred]
  set p1 : TPrim := { p with attrs := setIfPresent p.attrs "radius" (s.x * qHalf) }
    with hp1
  set trs1 : TRS := { trs with scale := none } with htrs1
  refine ⟨_, rfl, ?_, ?_, ?_⟩
  · rw [(rebuildXform_attrs trs1 (applyCommonOps trs1 p1)).1,
      applyCommonOps_attrs]
    exact lookupA_setIfPresent_self p.attrs "radius" (s.x * qHalf) hrad
  · rw [rebuildXform_scaleValues, (applyCommonOps_noscale trs1 p1 rfl).1]
  · intro hns hrs
    refine rebuildXform_noscale trs1 _ ?_ ?_
    · rw [(applyCommonOps_noscale trs1 p1 rfl).2]
      exact hns
    · rw [(applyCommonOps_fields trs1 p1).2.2]
      exact hrs

/-- Witness for C5_sphere_scale_redirect on a clean sphere: scale [4,4,4]
yields radius 2 and no scale op. -/
theorem C5_sphere_scale_redirect_witness :
    ∃ p2, setXformOps exSphere [⟨"scale", some ⟨4, 4, 4⟩⟩] = .ok p2 ∧
      lookupA p2.attrs "radius" = some ((4 : Q) * qHalf) ∧
      authoredScaleValues p2.ops = authoredScaleValues exSphere.ops ∧
      (hasScaleOp exSphere.ops = false → exSphere.refScale = none →
        hasScaleOp p2.ops = false) :=
  C5_sphere_scale_redirect exSphere [⟨"scale", some ⟨4, 4, 4⟩⟩]
    ⟨none, none, some ⟨4, 4, 4⟩⟩ ⟨4, 4, 4⟩ rfl rfl (by decide) rfl rfl


/-- Lemma: applyCommonOps with a supplied scale authors that scale op. -/
theorem applyCommonOps_scale_mem (trs : TRS) (p : TPrim) (s : Vec3)
    (hs : trs.scale = some s) :
    (⟨.scale, some (.v3 s)⟩ : XOp) ∈ (applyCommonOps trs p).ops := by
  unfold applyCommonOps
  rw [hs]
  rcases trs.translate <;> rcases trs.rotate <;> simp only [] <;>
    exact mem_caSet_self _ _ _

/-- Lemma: when the call set the scale, the rebuilt order keeps the scale
op. -/
theorem rebuildXform_keeps_set_scale (trs : TRS) (p : TPrim) (s : Vec3)
    (hs : trs.scale = some s)
    (hm : (⟨.scale, some (.v3 s)⟩ : XOp) ∈ p.ops) :
    (⟨.scale, some (.v3 s)⟩ : XOp) ∈ (rebuildXform trs p).ops := by
  simp only [rebuildXform, hs, Option.isSome_some, Bool.not_true, Bool.and_false,
    Bool.false_and, Bool.false_eq_true, if_false]
  have hk : keepOp trs.translate.isSome trs.rotate.isSome true false p.refScale
      ⟨.scale, some (.v3 s)⟩ = true := by simp [keepOp]
  have hmem := List.mem_filter.mpr ⟨hm, hk⟩
  rw [if_neg (fun hemp => (List.ne_nil_of_mem hmem) (List.isEmpty_iff.mp hemp))]
  exact hmem

/-- Claim C6: on a cube-type node, a SetTransform ops-form call supplying a
scale value authors it as an ordinary xform-scale op (kept in the rebuilt op
order) and modifies no geometric attribute of the cube (the attribute list is
untouched), supporting non-uniform scales. -/
theorem C6_cube_scale (p : TPrim) (entries : List OpEntry) (trs : TRS) (s : Vec3)
    (hty : p.typeName = "Cube")
    (hcompat : caCompatible p.ops = true)
    (hparse : parseXformEntries entries ⟨none, none, none⟩ = .ok trs)
    (hs : trs.scale = some s) :
    ∃ p2, setXformOps p entries = .ok p2 ∧
      p2.attrs = p.attrs ∧
      (⟨.scale, some (.v3 s)⟩ : XOp) ∈ p2.ops := by
  have hred : redirectScale p trs = (p, trs) := by
    unfold redirectScale
    rw [hs, hty]
    simp
  rw [setXformOps_ok p entries trs hparse, hred]
  refine ⟨_, rfl, ?_, ?_⟩
  · rw [(rebuildXform_attrs trs (applyCommonOps trs p)).1, applyCommonOps_attrs]
  · exact rebuildXform_keeps_set_scale trs _ s hs (applyCommonOps_scale_mem trs p s hs)

/-- Witness for C6_cube_scale: scale [10,10,1] on a cube with a `size`
attribute authors the non-uniform scale op and leaves `size` alone. -/
theorem C6_cube_scale_witness :
    ∃ p2, setXformOps exCube [⟨"scale", some ⟨10, 10, 1⟩⟩] = .ok p2 ∧
      p2.attrs = exCube.attrs ∧
      (⟨.scale, some (.v3 ⟨10, 10, 1⟩)⟩ : XOp) ∈ p2.ops :=
  C6_cube_scale exCube [⟨"scale", some ⟨10, 10, 1⟩⟩]
    ⟨none, none, some ⟨10, 10, 1⟩⟩ ⟨10, 10, 1⟩ rfl rfl rfl rfl

/-- Lemma: the first-fallback scan stops at the first matrix-type op that is
not identity-valued; when that op carries the non-identity value M the scan
returns M. -/
theorem matrixOpScan_finds (ops : List XOp) (i : ℕ) (M : Matrix4)
    (hop : ops.get? i = some ⟨.transform, some (.m4 M)⟩)
    (hM : M.identityLike = false)
    (hbefore : ∀ j, j < i → ∀ o, ops.get? j = some o → o.ty = XOpType.transform →
      ∃ m, o.value = some (.m4 m) ∧ m.identityLike = true) :
    matrixOpScan ops = some (some M) := by
  induction ops generalizing i with
  | nil => simp at hop
  | cons o rest ih =>
    cases i with
    | zero =>
      simp only [List.get?_cons_zero, Option.some.injEq] at hop
      rw [hop]
      simp [matrixOpScan, hM]
    | succ n =>
      simp only [List.get?_cons_succ] at hop
      by_cases ht : o.ty = XOpType.transform
      · obtain ⟨m, hv, hid⟩ := hbefore 0 (Nat.succ_pos n) o rfl ht
        simp only [matrixOpScan, ht, hv, hid, if_pos, if_true]
        exact ih n hop
          (fun j hj o2 hg hty => hbefore (j + 1) (by omega) o2 hg hty)
      · simp only [matrixOpScan, ht, if_false]
        exact ih n hop
          (fun j hj o2 hg hty => hbefore (j + 1) (by omega) o2 hg hty)

/-- Claim C7 (amended): when the composed world matrix is identity-like and
the FIRST matrix-type op that is not identity-valued carries an authored
non-identity value M (every earlier matrix-type op being identity-valued),
the resolver returns M.  (A valueless matrix-type op encountered first
instead short-circuits the scan and the report falls back to the identity
matrix — see the counterexample.) -/
theorem C7_matrix_op_fallback (composed : Matrix4) (ops : List XOp)
    (chain : List (List XOp)) (i : ℕ) (M : Matrix4)
    (hid : composed.identityLike = true)
    (hop : ops.get? i = some ⟨.transform, some (.m4 M)⟩)
    (hM : M.identityLike = false)
    (hbefore : ∀ j, j < i → ∀ o, ops.get? j = some o → o.ty = XOpType.transform →
      ∃ m, o.value = some (.m4 m) ∧ m.identityLike = true) :
    resolveWorld composed ops chain = M := by
  unfold resolveWorld
  rw [hid, matrixOpScan_finds ops i M hop hM hbefore]
  rfl

/-- Witness for C7_matrix_op_fallback: an identity-valued matrix op followed
by a non-identity one resolves to the latter. -/
theorem C7_matrix_op_fallback_witness :
    resolveWorld idMatrix4
      [⟨.transform, some (.m4 idMatrix4)⟩, ⟨.transform, some (.m4 exM5)⟩] [] =
      exM5 :=
  C7_matrix_op_fallback idMatrix4
    [⟨.transform, some (.m4 idMatrix4)⟩, ⟨.transform, some (.m4 exM5)⟩] [] 1 exM5
    (by decide) rfl (by decide)
    (by
      intro j hj o hg hty
      interval_cases j
      · simp only [List.get?_cons_zero, Option.some.injEq] at hg
        exact ⟨idMatrix4, by rw [← hg], by decide⟩)

/-- Claim C7 (counterexample): a node whose op list holds a valueless
matrix-type op followed by a non-identity matrix-type op satisfies the
claim's hypotheses (composed world identity-like, a non-identity explicit
matrix op present), yet the resolver reports the identity matrix, not that
op's value: the scan breaks at the valueless op (`_is_identity(None)` is
False) and the serialization of `None` falls back to identity. -/
theorem C7_counterexample :
    Matrix4.identityLike idMatrix4 = true ∧
    exOpsValueless.get? 1 = some ⟨.transform, some (.m4 exM5)⟩ ∧
    Matrix4.identityLike exM5 = false ∧
    resolveWorld idMatrix4 exOpsValueless [exOpsValueless] = idMatrix4 ∧
    idMatrix4 ≠ exM5 := by
  refine ⟨by decide, rfl, by decide, by decide, by decide⟩



/-- Claim C2: an AuthorVariants call that fails after validation with any
processing error (not a save failure) leaves the on-disk document unchanged —
the single save happens only after every step has succeeded. -/
theorem C2_no_save_on_error (lib : AssetLib) (q : AVParams) (disk : VStage)
    (saveOk : Bool) (e : ErrCode)
    (herr : (toolAuthorVariantsInFile lib q disk saveOk).1 = .error e)
    (hnotsave : e ≠ ErrCode.save_failed) :
    (toolAuthorVariantsInFile lib q disk saveOk).2 = disk := by
  unfold toolAuthorVariantsInFile at herr ⊢
  cases hc : authorVariantsCore lib q disk with
  | error e2 => simp [hc]
  | ok r =>
    cases saveOk with
    | true => rw [hc] at herr; simp at herr
    | false => rfl

/-- Witness for C2_no_save_on_error: a variant definition binding a missing
material fails with not-found and the disk stage is untouched. -/
theorem C2_no_save_on_error_witness :
    (toolAuthorVariantsInFile [] exAVParamsBadMat exVStage true).2 = exVStage :=
  C2_no_save_on_error [] exAVParamsBadMat exVStage true .not_found rfl (by decide)

/-- Claim C10: a batch item whose prim path carries the undocumented
`.set:variant` suffix creates the set and the variant, but the edit is NOT
applied inside that variant's edit scope: the edit context is constructed and
never entered, so the value lands in the prim's direct opinions while the
variant stays empty. -/
theorem C10_variant_suffix_not_isolated :
    parseVariantSuffix "/World/A.look:red" = ("/World/A", some ("look", "red")) ∧
    (toolBatchSetAttrs [] "/tmp/d.usda" [exItemSuffix] exBStage true).1.toOption =
      some ⟨[⟨"/World/A.look:red", "mass", true, none⟩], "/tmp/d.usda"⟩ ∧
    ((lookupA (toolBatchSetAttrs [] "/tmp/d.usda" [exItemSuffix] exBStage true).2
        "/World/A").map (fun p => variantPool p "look" "red")) =
      some (some VOpinions.empty) ∧
    ((lookupA (toolBatchSetAttrs [] "/tmp/d.usda" [exItemSuffix] exBStage true).2
        "/World/A").map (fun p => lookupA p.direct.attrs "mass")) =
      some (some (.num 5)) := by
  refine ⟨by decide, by decide, by decide, by decide⟩


/-! ### Helper lemmas for the batch theorems -/

theorem lookupA_modPrim (st : VStage) (pth : String) (f : VPrim → VPrim)
    (x : String) :
    lookupA (modPrim st pth f) x =
      if x = pth then (lookupA st x).map f else lookupA st x := by
  induction st with
  | nil => simp only [modPrim, lookupA]; split <;> rfl
  | cons kv rest ih =>
    rcases kv with ⟨k, v⟩
    simp only [modPrim]
    by_cases hx2 : x = pth
    · subst hx2
      by_cases hk : k = x
      · subst hk
        simp [lookupA]
      · simp [lookupA, hk, ih]
    · by_cases hk : k = x
      · subst hk
        simp [lookupA, hx2]
      · have hpx : ¬pth = x := fun h => hx2 h.symm
        by_cases hkp : k = pth <;> simp [lookupA, hk, ih, hx2, hkp, hpx]

theorem modPrim_isSome (st : VStage) (pth : String) (f : VPrim → VPrim)
    (x : String) :
    (lookupA (modPrim st pth f) x).isSome = (lookupA st x).isSome := by
  rw [lookupA_modPrim]
  split <;> simp

theorem shorthandStep_prims (st : VStage) (pp attr : String) (v : PVal)
    (x : String) (r : VStage × ItemResult) (h : shorthandStep st pp attr v = some r) :
    (lookupA r.1 x).isSome = (lookupA st x).isSome := by
  unfold shorthandStep at h
  repeat' split at h
  all_goals
    first
      | (cases h; simp [modPrim_isSome])
      | simp at h

theorem dispatchEdit_prims (lib : AssetLib) (st : VStage) (prim : VPrim)
    (pp rawPP attr : String) (v : PVal) (x : String) :
    (lookupA (dispatchEdit lib st prim pp rawPP attr v).1 x).isSome =
      (lookupA st x).isSome := by
  unfold dispatchEdit
  cases hsh : shorthandStep st pp attr v with
  | some r => simpa using shorthandStep_prims st pp attr v x r hsh
  | none =>
    simp only []
    repeat' split
    all_goals simp [modPrim_isSome]

/-- Lemma: processing one batch item never creates or removes a prim. -/
theorem processItem_prims (lib : AssetLib) (st : VStage) (it : BatchItem)
    (x : String) :
    (lookupA (processItem lib st it).1 x).isSome = (lookupA st x).isSome := by
  simp only [processItem]
  repeat' split
  all_goals
    first
      | rfl
      | simp [dispatchEdit_prims, modPrim_isSome]


/-- Lemma: a well-formed item addressing a missing prim reports not-found and
leaves the stage untouched. -/
theorem processItem_missing (lib : AssetLib) (st : VStage) (it : BatchItem)
    (hpp : pyStrip it.primPath ≠ "")
    (hattr : aliasAttr (pyStrip it.attr) ≠ "")
    (hmiss : lookupA st (parseVariantSuffix (pyStrip it.primPath)).1 = none) :
    processItem lib st it =
      (st, ⟨pyStrip it.primPath, aliasAttr (pyStrip it.attr), false,
        some "prim not found"⟩) := by
  simp only [processItem]
  rw [if_neg (by simp [hpp, hattr]), hmiss]

/-- Lemma: the batch loop yields one result per item. -/
theorem batchRun_length (lib : AssetLib) (st : VStage) (items : List BatchItem) :
    (batchRun lib st items).2.length = items.length := by
  induction items generalizing st with
  | nil => rfl
  | cons it rest ih => simp [batchRun, ih]

theorem isNone_eq_of_isSome_eq {α β : Type} {a : Option α} {b : Option β}
    (h : a.isSome = b.isSome) : a.isNone = b.isNone := by
  cases a <;> cases b <;> simp_all

/-- Lemma: itemMissingB is stable under processing other items (the prim set
never changes). -/
theorem itemMissingB_processItem (lib : AssetLib) (st : VStage) (it it2 : BatchItem) :
    itemMissingB (processItem lib st it).1 it2 = itemMissingB st it2 := by
  unfold itemMissingB
  rw [isNone_eq_of_isSome_eq (processItem_prims lib st it _)]

/-- Lemma: removing the well-formed-but-missing items does not change the
final stage of the batch loop. -/
theorem batchRun_skips_missing (lib : AssetLib) (items : List BatchItem)
    (st : VStage) :
    (batchRun lib st items).1 =
      (batchRun lib st (items.filter (fun it => !itemMissingB st it))).1 := by
  induction items generalizing st with
  | nil => rfl
  | cons it rest ih =>
    by_cases hm : itemMissingB st it = true
    · have hm2 := hm
      simp only [itemMissingB, Bool.and_eq_true, decide_eq_true_eq, ne_eq,
        Option.isNone_iff_eq_none] at hm2
      obtain ⟨⟨hp, ha⟩, hnone⟩ := hm2
      simp only [batchRun, List.filter_cons, hm, Bool.not_true, Bool.false_eq_true,
        if_false]
      rw [processItem_missing lib st it hp ha hnone]
      exact ih st
    · have hmb : itemMissingB st it = false := by
        cases h : itemMissingB st it
        · rfl
        · exact absurd h hm
      simp only [batchRun, List.filter_cons, hmb, Bool.not_false, if_true]
      have hcong : rest.filter (fun it2 => !itemMissingB st it2) =
          rest.filter (fun it2 => !itemMissingB (processItem lib st it).1 it2) :=
        List.filter_congr (fun it2 _ => by rw [itemMissingB_processItem])
      rw [hcong]
      exact ih (processItem lib st it).1

/-- Claim C4: a non-empty batch processes items independently: the call
succeeds with one result per item; a well-formed item addressing a missing
prim yields ok=false "prim not found" for that item only, leaving the stage
exactly as it was (so the final stage equals the run with those items
removed); and the single save persists the accumulated stage of the
successful items. -/
theorem C4_batch_isolation (lib : AssetLib) (path : String)
    (items : List BatchItem) (disk : VStage)
    (hpath : pyStrip path ≠ "") (hne : items ≠ []) :
    (toolBatchSetAttrs lib path items disk true).1 =
      .ok ⟨(batchRun lib disk items).2, pyStrip path⟩ ∧
    (toolBatchSetAttrs lib path items disk true).2 = (batchRun lib disk items).1 ∧
    (batchRun lib disk items).2.length = items.length ∧
    (∀ st it, pyStrip it.primPath ≠ "" → aliasAttr (pyStrip it.attr) ≠ "" →
      lookupA st (parseVariantSuffix (pyStrip it.primPath)).1 = none →
      processItem lib st it =
        (st, ⟨pyStrip it.primPath, aliasAttr (pyStrip it.attr), false,
          some "prim not found"⟩)) ∧
    (batchRun lib disk items).1 =
      (batchRun lib disk (items.filter (fun it => !itemMissingB disk it))).1 := by
  have hval : ¬(pyStrip path = "") := hpath
  have hnemp : items.isEmpty = false := by
    cases items
    · exact absurd rfl hne
    · rfl
  refine ⟨?_, ?_, batchRun_length lib disk items,
    fun st it hpp ha hm => processItem_missing lib st it hpp ha hm,
    batchRun_skips_missing lib items disk⟩
  · unfold toolBatchSetAttrs
    rw [if_neg hval, if_neg (by simp [hnemp])]
    rfl
  · unfold toolBatchSetAttrs
    rw [if_neg hval, if_neg (by simp [hnemp])]
    rfl

/-- Witness for C4_batch_isolation: the three-item batch with a missing
middle prim reports [ok, not-found, ok] and persists the edits of items 1
and 3. -/
theorem C4_batch_isolation_witness :
    (batchRun [] exBStage exItems3).2.length = exItems3.length ∧
    (batchRun [] exBStage exItems3).2 =
      [⟨"/World/A", "mass", true, none⟩,
       ⟨"/World/B", "mass", false, some "prim not found"⟩,
       ⟨"/World/C", "label", true, none⟩] ∧
    (toolBatchSetAttrs [] "/tmp/d.usda" exItems3 exBStage true).1.toOption =
      some ⟨(batchRun [] exBStage exItems3).2, "/tmp/d.usda"⟩ ∧
    ((lookupA (toolBatchSetAttrs [] "/tmp/d.usda" exItems3 exBStage true).2
        "/World/A").map (fun p => lookupA p.direct.attrs "mass")) =
      some (some (.num 2)) ∧
    ((lookupA (toolBatchSetAttrs [] "/tmp/d.usda" exItems3 exBStage true).2
        "/World/C").map (fun p => lookupA p.direct.attrs "label")) =
      some (some (.str "z")) :=
  ⟨(C4_batch_isolation [] "/tmp/d.usda" exItems3 exBStage (by decide)
      (by decide)).2.2.1,
   by decide, by decide, by decide, by decide⟩



/-! ### Helper lemmas for the variant-set theorems -/

theorem lookupA_upsertA_self {α : Type} (l : List (String × α)) (k : String) (v : α) :
    lookupA (upsertA l k v) k = some v := by
  induction l with
  | nil => simp [upsertA, lookupA]
  | cons kv rest ih =>
    by_cases hk : kv.1 = k
    · simp [upsertA, lookupA, hk]
    · simp [upsertA, lookupA, hk, ih]

theorem lookupA_upsertA_ne {α : Type} (l : List (String × α)) (k x : String) (v : α)
    (h : x ≠ k) : lookupA (upsertA l k v) x = lookupA l x := by
  induction l with
  | nil => simp [upsertA, lookupA, Ne.symm h]
  | cons kv rest ih =>
    by_cases hk : kv.1 = k
    · subst hk
      simp [upsertA, lookupA, Ne.symm h]
    · by_cases hx : kv.1 = x <;> simp [upsertA, lookupA, hk, hx, ih, h]

theorem lookupA_append_of_none {α : Type} (l1 l2 : List (String × α)) (k : String)
    (h : lookupA l1 k = none) : lookupA (l1 ++ l2) k = lookupA l2 k := by
  induction l1 with
  | nil => rfl
  | cons kv rest ih =>
    by_cases hk : kv.1 = k
    · simp [lookupA, hk] at h
    · simp only [lookupA, hk, if_neg, List.cons_append] at h ⊢
      simp [hk] at h ⊢
      exact ih h

theorem lookupA_append_of_some {α : Type} (l1 l2 : List (String × α)) (k : String)
    (v : α) (h : lookupA l1 k = some v) : lookupA (l1 ++ l2) k = some v := by
  induction l1 with
  | nil => simp [lookupA] at h
  | cons kv rest ih =>
    by_cases hk : kv.1 = k
    · simp_all [lookupA]
    · simp_all [lookupA]

theorem lookupA_append_single_ne {α : Type} (l : List (String × α)) (k x : String)
    (v : α) (h : x ≠ k) : lookupA (l ++ [(k, v)]) x = lookupA l x := by
  cases hl : lookupA l x with
  | some w => exact lookupA_append_of_some l [(k, v)] x w hl
  | none =>
    rw [lookupA_append_of_none l [(k, v)] x hl]
    simp [lookupA, Ne.symm h]

theorem getVSet_setVSet_self (p : VPrim) (s : String) (st : VariantSetSt) :
    getVSet (setVSet p s st) s = st := by
  unfold getVSet setVSet
  simp [lookupA_upsertA_self]

theorem direct_setVSet (p : VPrim) (s : String) (st : VariantSetSt) :
    (setVSet p s st).direct = p.direct := rfl

theorem direct_addVariant (p : VPrim) (s v : String) :
    (addVariant p s v).direct = p.direct := by
  simp only [addVariant]
  split <;> rfl

theorem direct_setSelection (p : VPrim) (s v : String) :
    (setSelection p s v).direct = p.direct := rfl

theorem direct_updateVariant (p : VPrim) (s v : String) (f : VOpinions → VOpinions) :
    (updateVariant p s v f).direct = p.direct := by
  simp only [updateVariant]
  split <;> rfl

theorem variantPool_addVariant_ne (p : VPrim) (s v w : String) (h : w ≠ v) :
    variantPool (addVariant p s v) s w = variantPool p s w := by
  simp only [variantPool, addVariant]
  split
  · rw [getVSet_setVSet_self]
  · rw [getVSet_setVSet_self]
    simp [lookupA_append_single_ne _ _ _ _ h]

theorem variantPool_setSelection (p : VPrim) (s v w : String) :
    variantPool (setSelection p s v) s w = variantPool p s w := by
  unfold variantPool setSelection
  rw [getVSet_setVSet_self]

theorem variantPool_updateVariant_ne (p : VPrim) (s v w : String)
    (f : VOpinions → VOpinions) (h : w ≠ v) :
    variantPool (updateVariant p s v f) s w = variantPool p s w := by
  simp only [variantPool, updateVariant]
  split
  · rw [getVSet_setVSet_self]
    simp [lookupA_upsertA_ne _ _ _ _ h]
  · rw [getVSet_setVSet_self]
    simp [lookupA_append_single_ne _ _ _ _ h]

theorem variantPool_addVariant_new (p : VPrim) (s v : String)
    (h : variantPool p s v = none) :
    variantPool (addVariant p s v) s v = some VOpinions.empty := by
  simp only [variantPool] at h ⊢
  simp only [addVariant]
  rw [if_neg (by simp [h])]
  rw [getVSet_setVSet_self]
  rw [lookupA_append_of_none _ _ _ h]
  simp [lookupA]

theorem variantPool_updateVariant_self (p : VPrim) (s v : String)
    (f : VOpinions → VOpinions) (o : VOpinions)
    (h : variantPool p s v = some o) :
    variantPool (updateVariant p s v f) s v = some (f o) := by
  simp only [variantPool] at h ⊢
  simp only [updateVariant, h]
  rw [getVSet_setVSet_self]
  simp [lookupA_upsertA_self]

theorem selectionOf_setSelection (p : VPrim) (s v : String) :
    selectionOf (setSelection p s v) s = some v := by
  unfold selectionOf setSelection
  rw [getVSet_setVSet_self]


/-- Lemma: a prim update that preserves the direct references and the default
variant of set `s` preserves the observation at every path. -/
theorem defaultObs_modPrim (st : VStage) (pp x s : String) (f : VPrim → VPrim)
    (hf : ∀ p, (f p).direct.refs = p.direct.refs ∧
      variantPool (f p) s "default" = variantPool p s "default") :
    defaultObs (modPrim st pp f) x s = defaultObs st x s := by
  unfold defaultObs
  rw [lookupA_modPrim]
  split
  · cases lookupA st x <;> simp [hf]
  · rfl

/-- Lemma: authoring into a non-default variant preserves the observation. -/
theorem defaultObs_update (st : VStage) (pp x s vn : String)
    (f : VOpinions → VOpinions) (h : vn ≠ "default") :
    defaultObs (modPrim st pp (fun p => updateVariant p s vn f)) x s =
      defaultObs st x s :=
  defaultObs_modPrim st pp x s _
    (fun p => ⟨by rw [direct_updateVariant],
      variantPool_updateVariant_ne p s vn "default" f (Ne.symm h)⟩)

/-- Lemma: the clear-local pre-pass with a pending default synthesis touches
neither the direct references nor any variant set. -/
theorem clearLocalPass_defaultObs (st : VStage) (pp x s : String)
    (vds : List VariantDef) :
    defaultObs (clearLocalPass st pp vds true) x s = defaultObs st x s := by
  simp only [clearLocalPass]
  apply defaultObs_modPrim
  intro p
  simp only [Bool.not_true, Bool.and_false, Bool.false_eq_true, if_false,
    variantPool, getVSet]
  split_ifs <;> exact ⟨rfl, rfl⟩

/-- Lemma: each step of the variant edit body preserves the observation when
the variant being authored is not `default`. -/
theorem aveStep_defaultObs (lib : AssetLib) (st : VStage)
    (pp sName x : String) (d : VariantDef) (vn : String) (st2 : VStage)
    (hvn : vn ≠ "default") :
    (aveRefStep lib st pp sName d vn = .ok st2 ∨
     aveMatStep st pp sName d vn = .ok st2 ∨
     aveXformStep st pp sName d vn = .ok st2 ∨
     aveAttrStep st pp sName d vn = .ok st2) →
    defaultObs st2 x sName = defaultObs st x sName := by
  have hupd : ∀ (f : VOpinions → VOpinions),
      defaultObs (modPrim st pp (fun p => updateVariant p sName vn f)) x sName =
        defaultObs st x sName :=
    fun f => defaultObs_update st pp x sName vn f hvn
  rintro (h | h | h | h)
  · simp only [aveRefStep] at h
    repeat' split at h
    all_goals first
      | (cases h; simp only [hupd])
      | simp at h
  · simp only [aveMatStep] at h
    repeat' split at h
    all_goals first
      | (cases h; simp only [hupd])
      | simp at h
  · simp only [aveXformStep] at h
    repeat' split at h
    all_goals first
      | (cases h; simp only [hupd])
      | simp at h
  · simp only [aveAttrStep] at h
    repeat' split at h
    all_goals first
      | (cases h; simp only [hupd])
      | simp at h

/-- Lemma: the per-variant authoring body preserves the observation when the
variant being authored is not `default`. -/
theorem authorVariantEdits_defaultObs (lib : AssetLib) (st : VStage)
    (pp sName x : String) (d : VariantDef) (vn : String) (st2 : VStage)
    (hvn : vn ≠ "default")
    (h : authorVariantEdits lib st pp sName d vn = .ok st2) :
    defaultObs st2 x sName = defaultObs st x sName := by
  unfold authorVariantEdits at h
  cases h1 : aveRefStep lib st pp sName d vn with
  | error e => rw [h1] at h; simp at h
  | ok stA =>
    rw [h1] at h
    dsimp only at h
    cases h2 : aveMatStep stA pp sName d vn with
    | error e => rw [h2] at h; simp at h
    | ok stB =>
      rw [h2] at h
      dsimp only at h
      cases h3 : aveXformStep stB pp sName d vn with
      | error e => rw [h3] at h; simp at h
      | ok stC =>
        rw [h3] at h
        dsimp only at h
        calc defaultObs st2 x sName
            = defaultObs stC x sName :=
              aveStep_defaultObs lib stC pp sName x d vn st2 hvn
                (Or.inr (Or.inr (Or.inr h)))
          _ = defaultObs stB x sName :=
              aveStep_defaultObs lib stB pp sName x d vn stC hvn
                (Or.inr (Or.inr (Or.inl h3)))
          _ = defaultObs stA x sName :=
              aveStep_defaultObs lib stA pp sName x d vn stB hvn
                (Or.inr (Or.inl h2))
          _ = defaultObs st x sName :=
              aveStep_defaultObs lib st pp sName x d vn stA hvn (Or.inl h1)

/-- Lemma: the whole per-variant loop preserves the observation when no
definition is named `default`, and every created name comes from some
definition. -/
theorem processDefs_defaultObs (lib : AssetLib) (pp sName x : String) :
    ∀ (vds : List VariantDef) (st : VStage) (created : List String)
      (st2 : VStage) (created2 : List String),
      (∀ d ∈ vds, defName d ≠ "default") →
      processDefs lib pp sName vds st created = .ok (st2, created2) →
      defaultObs st2 x sName = defaultObs st x sName ∧
      (∀ y ∈ created2, y ∈ created ∨ ∃ d ∈ vds, y = defName d) := by
  intro vds
  induction vds with
  | nil =>
    intro st created st2 created2 _ h
    simp only [processDefs] at h
    cases h
    exact ⟨rfl, fun y hy => Or.inl hy⟩
  | cons d rest ih =>
    intro st created st2 created2 hnd h
    simp only [processDefs] at h
    by_cases hdn : defName d = ""
    · rw [if_pos hdn] at h
      obtain ⟨h1, h2⟩ := ih st created st2 created2
        (fun d2 hd2 => hnd d2 (List.mem_cons_of_mem d hd2)) h
      refine ⟨h1, fun y hy => ?_⟩
      rcases h2 y hy with hc | ⟨d2, hd2, he⟩
      · exact Or.inl hc
      · exact Or.inr ⟨d2, List.mem_cons_of_mem d hd2, he⟩
    · rw [if_neg hdn] at h
      cases hav : authorVariantEdits lib
          (modPrim st pp (fun p => setSelection (addVariant p sName (defName d))
            sName (defName d))) pp sName d (defName d) with
      | error e => rw [hav] at h; simp at h
      | ok stm =>
        rw [hav] at h
        obtain ⟨h1, h2⟩ := ih stm (created ++ [defName d]) st2 created2
          (fun d2 hd2 => hnd d2 (List.mem_cons_of_mem d hd2)) h
        have hd1 : defName d ≠ "default" := hnd d (List.mem_cons_self d rest)
        have hstep : defaultObs stm x sName = defaultObs st x sName := by
          rw [authorVariantEdits_defaultObs lib _ pp sName x d (defName d) stm hd1 hav]
          exact defaultObs_modPrim st pp x sName _
            (fun p => ⟨by rw [direct_setSelection, direct_addVariant],
              by rw [variantPool_setSelection,
                variantPool_addVariant_ne p sName (defName d) "default" (Ne.symm hd1)]⟩)
        refine ⟨by rw [h1, hstep], fun y hy => ?_⟩
        rcases h2 y hy with hc | ⟨d2, hd2, he⟩
        · rcases List.mem_append.mp hc with hc2 | hc2
          · exact Or.inl hc2
          · simp at hc2
            exact Or.inr ⟨d, List.mem_cons_self d rest, hc2⟩
        · exact Or.inr ⟨d2, List.mem_cons_of_mem d hd2, he⟩


/-- Lemma: authoring inside a variant preserves the set selection. -/
theorem selectionOf_updateVariant (p : VPrim) (s v : String)
    (f : VOpinions → VOpinions) :
    selectionOf (updateVariant p s v f) s = selectionOf p s := by
  simp only [selectionOf, updateVariant]
  split <;> rw [getVSet_setVSet_self]

/-- Lemma: the observation at a present prim is its references paired with its
default pool. -/
theorem defaultObs_eq_some (st : VStage) (pp s : String) (p : VPrim)
    (h : lookupA st pp = some p) :
    defaultObs st pp s = some (p.direct.refs, variantPool p s "default") := by
  simp [defaultObs, h]

/-- Lemma: a present observation is realized by a present prim. -/
theorem defaultObs_extract (st : VStage) (pp s : String) (R : List Reference)
    (P : Option VOpinions) (h : defaultObs st pp s = some (R, P)) :
    ∃ p, lookupA st pp = some p ∧ p.direct.refs = R ∧
      variantPool p s "default" = P := by
  simp only [defaultObs] at h
  cases hl : lookupA st pp with
  | none => rw [hl] at h; simp at h
  | some p =>
    rw [hl] at h
    simp only [Option.map] at h
    cases h
    exact ⟨p, rfl, rfl, rfl⟩

/-- Lemma: re-authoring the snapshotted references one by one inside the
default variant accumulates them in the default pool and touches nothing
else on the prim (tier3.py lines 300-310). -/
theorem foldSnap_obs (pp sName : String) :
    ∀ (l : List Reference) (st : VStage) (p : VPrim) (o : VOpinions),
      lookupA st pp = some p →
      variantPool p sName "default" = some o →
      ∃ p2,
        lookupA (l.foldl (fun acc r => modPrim acc pp (fun q =>
            updateVariant q sName "default"
              (fun w => { w with refs := addRef w.refs (snapshotRef r) }))) st)
          pp = some p2 ∧
        p2.direct = p.direct ∧
        variantPool p2 sName "default" =
          some { o with
            refs := l.foldl (fun a r => addRef a (snapshotRef r)) o.refs }
  | [], st, p, o, hst, hp => ⟨p, hst, rfl, hp⟩
  | r :: l, st, p, o, hst, hp => by
    have hst2 : lookupA (modPrim st pp (fun q =>
        updateVariant q sName "default"
          (fun w => { w with refs := addRef w.refs (snapshotRef r) }))) pp =
        some (updateVariant p sName "default"
          (fun w => { w with refs := addRef w.refs (snapshotRef r) })) := by
      rw [lookupA_modPrim]
      simp [hst]
    have hp2 := variantPool_updateVariant_self p sName "default"
      (fun w => { w with refs := addRef w.refs (snapshotRef r) }) o hp
    obtain ⟨p2, h1, h2, h3⟩ := foldSnap_obs pp sName l _ _ _ hst2 hp2
    refine ⟨p2, h1, ?_, h3⟩
    rw [h2, direct_updateVariant]


/-- Lemma: after the default-variant synthesis block (tier3.py lines 283-329)
the prim observation holds the snapshotted references inside the `default`
pool, with the direct references cleared exactly when clear-local was
requested. -/
theorem stage2_obs (q : AVParams) (disk : VStage) (prim0 : VPrim)
    (hprim : lookupA disk q.primPath = some prim0)
    (hpool0 : variantPool prim0 q.setName "default" = none) :
    defaultObs
      (if q.clearLocal = true then
        modPrim
          (List.foldl
            (fun acc r => modPrim acc q.primPath (fun p =>
              updateVariant p q.setName "default" (fun o =>
                { o with refs := addRef o.refs (snapshotRef r) })))
            (modPrim
              (if q.clearLocal = true then
                clearLocalPass disk q.primPath (variantsToProcess q) true
              else disk)
              q.primPath (fun p =>
                setSelection (addVariant p q.setName "default") q.setName "default"))
            prim0.direct.refs)
          q.primPath (fun p =>
            { p with direct := { p.direct with refs := [] } })
      else
        List.foldl
          (fun acc r => modPrim acc q.primPath (fun p =>
            updateVariant p q.setName "default" (fun o =>
              { o with refs := addRef o.refs (snapshotRef r) })))
          (modPrim
            (if q.clearLocal = true then
              clearLocalPass disk q.primPath (variantsToProcess q) true
            else disk)
            q.primPath (fun p =>
              setSelection (addVariant p q.setName "default") q.setName "default"))
          prim0.direct.refs)
      q.primPath q.setName =
    some ((if q.clearLocal = true then [] else prim0.direct.refs),
      some { VOpinions.empty with
        refs := prim0.direct.refs.foldl
          (fun a r => addRef a (snapshotRef r)) [] }) := by
  cases hcl : q.clearLocal with
  | false =>
    simp only [Bool.false_eq_true, if_false]
    have hpg : lookupA (modPrim disk q.primPath (fun p =>
        setSelection (addVariant p q.setName "default") q.setName "default"))
        q.primPath =
        some (setSelection (addVariant prim0 q.setName "default")
          q.setName "default") := by
      rw [lookupA_modPrim]
      simp [hprim]
    have hpgpool : variantPool
        (setSelection (addVariant prim0 q.setName "default") q.setName "default")
        q.setName "default" = some VOpinions.empty := by
      rw [variantPool_setSelection]
      exact variantPool_addVariant_new prim0 q.setName "default" hpool0
    obtain ⟨pf, hpf, hpfdir, hpfpool⟩ :=
      foldSnap_obs q.primPath q.setName prim0.direct.refs _ _ VOpinions.empty
        hpg hpgpool
    rw [defaultObs_eq_some _ _ _ pf hpf, hpfpool, hpfdir, direct_setSelection,
      direct_addVariant]
    rfl
  | true =>
    simp only [if_true]
    have hobs_base : defaultObs
        (clearLocalPass disk q.primPath (variantsToProcess q) true)
        q.primPath q.setName = some (prim0.direct.refs, none) := by
      rw [clearLocalPass_defaultObs,
        defaultObs_eq_some disk q.primPath q.setName prim0 hprim, hpool0]
    obtain ⟨p1, hp1, hp1refs, hp1pool⟩ := defaultObs_extract _ _ _ _ _ hobs_base
    have hpg : lookupA (modPrim
        (clearLocalPass disk q.primPath (variantsToProcess q) true)
        q.primPath (fun p =>
          setSelection (addVariant p q.setName "default") q.setName "default"))
        q.primPath =
        some (setSelection (addVariant p1 q.setName "default")
          q.setName "default") := by
      rw [lookupA_modPrim]
      simp [hp1]
    have hpgpool : variantPool
        (setSelection (addVariant p1 q.setName "default") q.setName "default")
        q.setName "default" = some VOpinions.empty := by
      rw [variantPool_setSelection]
      exact variantPool_addVariant_new p1 q.setName "default" hp1pool
    obtain ⟨pf, hpf, hpfdir, hpfpool⟩ :=
      foldSnap_obs q.primPath q.setName prim0.direct.refs _ _ VOpinions.empty
        hpg hpgpool
    have hclear : lookupA (modPrim
        (List.foldl
          (fun acc r => modPrim acc q.primPath (fun p =>
            updateVariant p q.setName "default" (fun o =>
              { o with refs := addRef o.refs (snapshotRef r) })))
          (modPrim
            (clearLocalPass disk q.primPath (variantsToProcess q) true)
            q.primPath (fun p =>
              setSelection (addVariant p q.setName "default") q.setName "default"))
          prim0.direct.refs)
        q.primPath (fun p =>
          { p with direct := { p.direct with refs := [] } }))
        q.primPath =
        some { pf with direct := { pf.direct with refs := [] } } := by
      rw [lookupA_modPrim]
      simp [hpf]
    rw [defaultObs_eq_some _ _ _ _ hclear]
    have hsame : variantPool { pf with direct := { pf.direct with refs := [] } }
        q.setName "default" = variantPool pf q.setName "default" := rfl
    rw [hsame, hpfpool]
    rfl


/-- C1 (amended): for an AuthorVariants call on a node holding direct
references, with a fresh variant set, at least one reference-authoring
definition and none named `default`, every successful call synthesizes a
`default` variant holding the snapshotted references, leaves `default`
selected when no explicit select is given, reports `default` first among the
created variants — but clears the node's direct references only when
`clear_local` is true (which tier3.py line 96 defaults it to); a call
passing `clear_local` false explicitly keeps them. -/
theorem C1_default_preservation (lib : AssetLib) (q : AVParams) (disk : VStage)
    (prim0 : VPrim) (r : VStage × AVOut)
    (hpath : ¬ pyStrip q.path = "")
    (hpp : ¬ q.primPath = "")
    (hsn : ¬ q.setName = "")
    (hvar : strTruthy q.variant = false)
    (hvars : varsTruthy q.variants = true)
    (hprim : lookupA disk q.primPath = some prim0)
    (hrefs : prim0.direct.refs ≠ [])
    (hnew : (getVSet prim0 q.setName).variants.isEmpty = true)
    (hasset : (variantsToProcess q).any (fun d => strTruthy d.assetPath) = true)
    (hnd : ∀ d ∈ variantsToProcess q, ¬ defName d = "default")
    (hok : authorVariantsCore lib q disk = .ok r) :
    toolAuthorVariantsInFile lib q disk true = (.ok r.2, r.1) ∧
    r.2.variants.head? = some "default" ∧
    ∃ p2, lookupA r.1 q.primPath = some p2 ∧
      variantPool p2 q.setName "default" = some { VOpinions.empty with refs := prim0.direct.refs.foldl (fun a rf => addRef a (snapshotRef rf)) [] } ∧
      p2.direct.refs = (if q.clearLocal = true then [] else prim0.direct.refs) ∧
      (strTruthy q.select = false → selectionOf p2 q.setName = some "default") := by
  have htool : toolAuthorVariantsInFile lib q disk true = (.ok r.2, r.1) := by
    simp only [toolAuthorVariantsInFile, hok, if_true, ite_true]
  have hdef : (variantsToProcess q).any (fun d => defName d = "default") = false := by
    rw [List.any_eq_false]
    intro d hd
    simpa using hnd d hd
  have hne : prim0.direct.refs.isEmpty = false := by
    cases h : prim0.direct.refs with
    | nil => exact absurd h hrefs
    | cons a l => rfl
  have hpool0 : variantPool prim0 q.setName "default" = none := by
    simp only [variantPool]
    cases hv : (getVSet prim0 q.setName).variants with
    | nil => rfl
    | cons a l => rw [hv] at hnew; simp at hnew
  simp only [authorVariantsCore, hprim, hvar, hvars, hpath, hpp, hsn, hnew,
    hasset, hdef, hne, Bool.not_true, Bool.not_false, Bool.true_and,
    Bool.and_true, Bool.and_false, Bool.false_and, false_or, or_false,
    not_false_eq_true, if_true, if_false, ite_true, ite_false,
    Bool.false_eq_true, Bool.true_eq_false, false_and, and_false,
    not_false_iff] at hok
  split at hok
  · exact absurd hok (by simp)
  · rename_i stage3 created hcd
    cases hok
    have hpres := processDefs_defaultObs lib q.primPath q.setName q.primPath
      (variantsToProcess q) _ [] stage3 created hnd hcd
    have hcont : created.contains "default" = false := by
      cases hc : created.contains "default"
      · rfl
      · exfalso
        have hm : "default" ∈ created := by simpa using hc
        rcases hpres.2 "default" hm with hin | ⟨d, hd, he⟩
        · simp at hin
        · exact hnd d hd he.symm
    refine ⟨htool, ?_, ?_⟩
    · show (if (!created.contains "default") = true
          then "default" :: created else created).head? = some "default"
      rw [hcont]
      rfl
    · have hobs2 := stage2_obs q disk prim0 hprim hpool0
      have hobs3 := hpres.1.trans hobs2
      obtain ⟨p3, hp3, hp3refs, hp3pool⟩ := defaultObs_extract _ _ _ _ _ hobs3
      cases hsel : strTruthy q.select with
      | false =>
        refine ⟨setSelection p3 q.setName "default", ?_, ?_, ?_, ?_⟩
        · show lookupA (modPrim stage3 q.primPath
            (fun p => setSelection p q.setName "default")) q.primPath = _
          rw [lookupA_modPrim]
          simp [hp3]
        · rw [variantPool_setSelection]
          exact hp3pool
        · rw [direct_setSelection]
          exact hp3refs
        · intro _
          exact selectionOf_setSelection p3 q.setName "default"
      | true =>
        cases hqs : q.select with
        | none => rw [hqs] at hsel; simp [strTruthy] at hsel
        | some sel =>
          refine ⟨setSelection p3 q.setName sel, ?_, ?_, ?_, ?_⟩
          · show lookupA (modPrim stage3 q.primPath
              (fun p => setSelection p q.setName sel)) q.primPath = _
            rw [lookupA_modPrim]
            simp [hp3]
          · rw [variantPool_setSelection]
            exact hp3pool
          · rw [direct_setSelection]
            exact hp3refs
          · intro hf
            cases hf


/-- C1 counterexample: with `clear_local` explicitly passed as false
(tier3.py line 96 defaults it to true) the same call succeeds, synthesizes
the `default` variant holding the snapshotted reference to A and selects
it — but the node's direct reference is NOT cleared, contradicting the
claim's unconditional clearing. -/
theorem C1_counterexample :
    (toolAuthorVariantsInFile [] (exAVParams false) exVStage true).1.toOption =
      some ⟨"/World/Chair", "modelVariant", ["default", "b"], some "default"⟩ ∧
    ((lookupA (toolAuthorVariantsInFile [] (exAVParams false) exVStage true).2
        "/World/Chair").map (fun p => (variantRefs p "modelVariant" "default",
          selectionOf p "modelVariant", p.direct.refs)) =
      some (some [exRefA], some "default", [exRefA])) ∧
    [exRefA] ≠ ([] : List Reference) := by
  decide

/-- C1 witness: the amended theorem applied at the clear-local run of the
example scenario. -/
theorem C1_default_preservation_witness :
    (∀ d ∈ variantsToProcess (exAVParams true), ¬ defName d = "default") ∧
    (toolAuthorVariantsInFile [] (exAVParams true) exVStage true =
        (.ok exC1Out, exC1Stage) ∧
      exC1Out.variants.head? = some "default" ∧
      ∃ p2, lookupA exC1Stage "/World/Chair" = some p2 ∧
        variantPool p2 "modelVariant" "default" =
          some { VOpinions.empty with refs := [exRefA] } ∧
        p2.direct.refs = ([] : List Reference) ∧
        (strTruthy (exAVParams true).select = false →
          selectionOf p2 "modelVariant" = some "default")) :=
  ⟨by decide,
   C1_default_preservation [] (exAVParams true) exVStage exChair
     (exC1Stage, exC1Out)
     (by decide) (by decide) (by decide) (by decide) (by decide) (by decide)
     (by decide) (by decide) (by decide) (by decide) rfl⟩



/-! ### Helper lemmas for the compose theorems -/

theorem lookupA_map_keyfix (g : PrimC → PrimC) (path : String) :
    ∀ (l : List (String × PrimC)) (x : String),
      lookupA (l.map (fun kv =>
        if kv.1 = path then (kv.1, g kv.2) else kv)) x =
        if x = path then (lookupA l x).map g else lookupA l x
  | [], x => by simp [lookupA]
  | (k, v) :: rest, x => by
    have ih := lookupA_map_keyfix g path rest x
    simp only [List.map_cons]
    by_cases hk : k = path
    · subst hk
      rw [if_pos rfl]
      by_cases hx : k = x
      · subst hx
        simp [lookupA]
      · have hxk : ¬ x = k := fun h => hx h.symm
        simp [lookupA, hx, hxk, ih]
    · rw [if_neg hk]
      by_cases hx : k = x
      · subst hx
        simp [lookupA, hk]
      · have hxk : ¬ x = k := fun h => hx h.symm
        simp [lookupA, hx, hxk, ih]

theorem lookupA_addRefToPrim (st : StageC) (path x : String) (r : Reference) :
    lookupA (addRefToPrim st path r).prims x =
      if x = path then
        (lookupA st.prims x).map (fun pc => { pc with refs := addRef pc.refs r })
      else lookupA st.prims x := by
  simp only [addRefToPrim]
  exact lookupA_map_keyfix (fun pc => { pc with refs := addRef pc.refs r })
    path st.prims x

theorem lookupA_definePrim_self (st : StageC) (p ty : String) :
    ∃ pc, lookupA (definePrim st p ty).prims p = some pc := by
  simp only [definePrim]
  cases h : lookupA st.prims p with
  | some pc => exact ⟨pc, h⟩
  | none =>
    refine ⟨⟨ty, []⟩, ?_⟩
    rw [lookupA_append_of_none st.prims _ p h]
    simp [lookupA]

theorem lookupA_definePrim_mono (st : StageC) (p ty x : String) (pc : PrimC)
    (h : lookupA st.prims x = some pc) :
    lookupA (definePrim st p ty).prims x = some pc := by
  simp only [definePrim]
  cases hl : lookupA st.prims p with
  | some _ => exact h
  | none => exact lookupA_append_of_some st.prims _ x pc h

theorem mem_addRef_self (l : List Reference) (r : Reference) : r ∈ addRef l r := by
  simp only [addRef]
  split
  · rename_i h
    obtain ⟨x, hx, he⟩ := List.any_eq_true.mp h
    exact (of_decide_eq_true he) ▸ hx
  · exact List.mem_append_right l (List.mem_singleton.mpr rfl)

theorem mem_addRef_mono (l : List Reference) (r r2 : Reference) (h : r ∈ l) :
    r ∈ addRef l r2 := by
  simp only [addRef]
  split
  · exact h
  · exact List.mem_append_left _ h

/-- Lemma: placing an asset authors its reference at the target path computed
by the placement block (the wrapper path itself for single-asset runs, the
wrapper's child otherwise). -/
theorem placeAsset_self (lib : AssetLib) (st : StageC) (isLayout : Bool)
    (containerRoot name rOpen rRef : String) (internal : Option String) :
    ∃ p, lookupA (placeAsset lib st isLayout containerRoot name rOpen rRef
        internal).prims
      (if isLayout then
        rstripSlash (wrapperPathFor containerRoot name) ++ "/" ++
          refPrimNameFor lib rOpen rRef
      else wrapperPathFor containerRoot name) = some p ∧
      (⟨rRef, internal⟩ : Reference) ∈ p.refs := by
  simp only [placeAsset]
  cases isLayout with
  | false =>
    simp only [Bool.false_eq_true, if_false]
    obtain ⟨pc, hpc⟩ := lookupA_definePrim_self st (wrapperPathFor containerRoot name) "Xform"
    refine ⟨{ pc with refs := addRef pc.refs ⟨rRef, internal⟩ }, ?_, ?_⟩
    · rw [lookupA_addRefToPrim, if_pos rfl, hpc]
      rfl
    · exact mem_addRef_self pc.refs ⟨rRef, internal⟩
  | true =>
    simp only [if_true]
    obtain ⟨pc, hpc⟩ := lookupA_definePrim_self
      (definePrim st (wrapperPathFor containerRoot name) "Xform")
      (rstripSlash (wrapperPathFor containerRoot name) ++ "/" ++
        refPrimNameFor lib rOpen rRef) "Xform"
    refine ⟨{ pc with refs := addRef pc.refs ⟨rRef, internal⟩ }, ?_, ?_⟩
    · rw [lookupA_addRefToPrim, if_pos rfl, hpc]
      rfl
    · exact mem_addRef_self pc.refs ⟨rRef, internal⟩

/-- Lemma: placing an asset preserves every already-authored reference. -/
theorem placeAsset_mono (lib : AssetLib) (st : StageC) (isLayout : Bool)
    (containerRoot name rOpen rRef : String) (internal : Option String)
    (x : String) (p : PrimC) (r : Reference)
    (h1 : lookupA st.prims x = some p) (h2 : r ∈ p.refs) :
    ∃ p2, lookupA (placeAsset lib st isLayout containerRoot name rOpen rRef
        internal).prims x = some p2 ∧ r ∈ p2.refs := by
  simp only [placeAsset]
  cases isLayout with
  | false =>
    simp only [Bool.false_eq_true, if_false]
    have h3 := lookupA_definePrim_mono st (wrapperPathFor containerRoot name)
      "Xform" x p h1
    rw [lookupA_addRefToPrim]
    by_cases hx : x = wrapperPathFor containerRoot name
    · rw [if_pos hx, h3]
      exact ⟨_, rfl, mem_addRef_mono p.refs r _ h2⟩
    · rw [if_neg hx, h3]
      exact ⟨p, rfl, h2⟩
  | true =>
    simp only [if_true]
    have h3 := lookupA_definePrim_mono st (wrapperPathFor containerRoot name)
      "Xform" x p h1
    have h4 := lookupA_definePrim_mono _
      (rstripSlash (wrapperPathFor containerRoot name) ++ "/" ++
        refPrimNameFor lib rOpen rRef) "Xform" x p h3
    rw [lookupA_addRefToPrim]
    by_cases hx : x = rstripSlash (wrapperPathFor containerRoot name) ++ "/" ++
        refPrimNameFor lib rOpen rRef
    · rw [if_pos hx, h4]
      exact ⟨_, rfl, mem_addRef_mono p.refs r _ h2⟩
    · rw [if_neg hx, h4]
      exact ⟨p, rfl, h2⟩


/-- Lemma: the asset loop preserves every already-authored reference. -/
theorem composeLoop_mono (lib : AssetLib) (flatten isLayout : Bool)
    (containerRoot outputDir : String) :
    ∀ (l : List AssetIn) (st0 : StageC) (n0 : ℕ) (st1 : StageC) (n1 : ℕ)
      (x : String) (p : PrimC) (r : Reference),
      lookupA st0.prims x = some p → r ∈ p.refs →
      composeLoop lib flatten isLayout containerRoot outputDir l st0 n0 =
        .ok (st1, n1) →
      ∃ p2, lookupA st1.prims x = some p2 ∧ r ∈ p2.refs
  | [], st0, n0, st1, n1, x, p, r => by
    intro h1 h2 h3
    simp only [composeLoop] at h3
    cases h3
    exact ⟨p, h1, h2⟩
  | a :: rest, st0, n0, st1, n1, x, p, r => by
    intro h1 h2 h3
    simp only [composeLoop] at h3
    split at h3
    · exact composeLoop_mono lib flatten isLayout containerRoot outputDir rest
        st0 n0 st1 n1 x p r h1 h2 h3
    · repeat' split at h3
      all_goals first
        | cases h3
        | (obtain ⟨p1, hp1, hr1⟩ := placeAsset_mono lib st0 isLayout
            containerRoot _ _ _ _ x p r h1 h2
           exact composeLoop_mono lib flatten isLayout containerRoot outputDir
             rest _ _ st1 n1 x p1 r hp1 hr1 h3)

/-- Lemma: every processed asset of the loop ends with its reference authored
at its placement path. -/
theorem composeLoop_places (lib : AssetLib) (flatten isLayout : Bool)
    (containerRoot outputDir : String) :
    ∀ (l : List AssetIn) (st0 : StageC) (n0 : ℕ) (st1 : StageC) (n1 : ℕ)
      (a : AssetIn),
      a ∈ l → ¬ pyStrip (a.assetPath.getD "") = "" →
      composeLoop lib flatten isLayout containerRoot outputDir l st0 n0 =
        .ok (st1, n1) →
      ∃ p, lookupA st1.prims
          (placedPathFor lib isLayout containerRoot outputDir a) = some p ∧
        placedRefFor lib outputDir a ∈ p.refs
  | [], st0, n0, st1, n1, a => by
    intro hmem
    cases hmem
  | b :: rest, st0, n0, st1, n1, a => by
    intro hmem hsrc h3
    simp only [composeLoop] at h3
    rcases List.mem_cons.mp hmem with heq | hmem2
    · subst heq
      rw [if_neg hsrc] at h3
      by_cases hus : (flatten && (isUsdz (pyStrip (a.assetPath.getD "")) ||
          isUsdz (if pyStartsWith (pyStrip (a.assetPath.getD "")) "/" then
            pyStrip (a.assetPath.getD "")
          else outputDir ++ "/" ++ pyStrip (a.assetPath.getD "")))) = true
      · rw [if_pos hus] at h3
        cases h3
      · rw [if_neg hus] at h3
        obtain ⟨p1, hp1, hr1⟩ := placeAsset_self lib st0 isLayout containerRoot
          (assetName a (pyStrip (a.assetPath.getD "")))
          (if pyStartsWith (pyStrip (a.assetPath.getD "")) "/" then
            pyStrip (a.assetPath.getD "")
          else outputDir ++ "/" ++ pyStrip (a.assetPath.getD ""))
          (pyStrip (a.assetPath.getD ""))
          (resolveInternalFor lib
            (if pyStartsWith (pyStrip (a.assetPath.getD "")) "/" then
              pyStrip (a.assetPath.getD "")
            else outputDir ++ "/" ++ pyStrip (a.assetPath.getD ""))
            a.internalPath)
        obtain ⟨p2, hp2, hr2⟩ := composeLoop_mono lib flatten isLayout
          containerRoot outputDir rest _ _ st1 n1 _ p1 _ hp1 hr1 h3
        exact ⟨p2, hp2, hr2⟩
    · split at h3
      · exact composeLoop_places lib flatten isLayout containerRoot outputDir
          rest st0 n0 st1 n1 a hmem2 hsrc h3
      · repeat' split at h3
        all_goals first
          | cases h3
          | exact composeLoop_places lib flatten isLayout containerRoot
              outputDir rest _ _ st1 n1 a hmem2 hsrc h3


/-- Lemma: defining a prim keeps every present prim present. -/
theorem lookupA_definePrim_isSome (st : StageC) (p ty x : String)
    (h : (lookupA st.prims x).isSome = true) :
    (lookupA (definePrim st p ty).prims x).isSome = true := by
  cases ho : lookupA st.prims x with
  | none => rw [ho] at h; cases h
  | some pc => rw [lookupA_definePrim_mono st p ty x pc ho]; rfl

/-- Lemma: authoring a reference keeps every present prim present. -/
theorem lookupA_addRefToPrim_isSome (st : StageC) (p x : String) (r : Reference)
    (h : (lookupA st.prims x).isSome = true) :
    (lookupA (addRefToPrim st p r).prims x).isSome = true := by
  rw [lookupA_addRefToPrim]
  split
  · cases ho : lookupA st.prims x with
    | none => rw [ho] at h; cases h
    | some pc => rfl
  · exact h

/-- Lemma: placing an asset keeps every present prim present. -/
theorem lookupA_placeAsset_isSome (lib : AssetLib) (st : StageC)
    (isLayout : Bool) (containerRoot name rOpen rRef : String)
    (internal : Option String) (x : String)
    (h : (lookupA st.prims x).isSome = true) :
    (lookupA (placeAsset lib st isLayout containerRoot name rOpen rRef
      internal).prims x).isSome = true := by
  simp only [placeAsset]
  cases isLayout with
  | false =>
    simp only [Bool.false_eq_true, if_false]
    exact lookupA_addRefToPrim_isSome _ _ _ _
      (lookupA_definePrim_isSome st _ _ x h)
  | true =>
    simp only [if_true]
    exact lookupA_addRefToPrim_isSome _ _ _ _
      (lookupA_definePrim_isSome _ _ _ x
        (lookupA_definePrim_isSome st _ _ x h))

/-- Lemma: the asset loop keeps every present prim present. -/
theorem composeLoop_isSome (lib : AssetLib) (flatten isLayout : Bool)
    (containerRoot outputDir : String) :
    ∀ (l : List AssetIn) (st0 : StageC) (n0 : ℕ) (st1 : StageC) (n1 : ℕ)
      (x : String),
      (lookupA st0.prims x).isSome = true →
      composeLoop lib flatten isLayout containerRoot outputDir l st0 n0 =
        .ok (st1, n1) →
      (lookupA st1.prims x).isSome = true
  | [], st0, n0, st1, n1, x => by
    intro h1 h3
    simp only [composeLoop] at h3
    cases h3
    exact h1
  | a :: rest, st0, n0, st1, n1, x => by
    intro h1 h3
    simp only [composeLoop] at h3
    split at h3
    · exact composeLoop_isSome lib flatten isLayout containerRoot outputDir rest
        st0 n0 st1 n1 x h1 h3
    · repeat' split at h3
      all_goals first
        | cases h3
        | exact composeLoop_isSome lib flatten isLayout containerRoot outputDir
            rest _ _ st1 n1 x
            (lookupA_placeAsset_isSome lib st0 isLayout containerRoot
              _ _ _ _ x h1) h3


/-- C8 (amended): every successfully composed asset with a usable path has its
reference authored at the placement path: the wrapper path itself
(`containerRoot/<name>`, collapsed to `containerRoot` when the name equals the
container root's final component) for single-asset runs, and for multi-asset
layout runs a child of the wrapper named after the referenced document's
default node, falling back to the asset's filename. -/
theorem C8_placement_topology (lib : AssetLib) (q : ComposeParams)
    (ex : Option StageC) (a : AssetIn) (out : ComposeOut) (st : StageC)
    (hmem : a ∈ q.assets)
    (hsrc : ¬ pyStrip (a.assetPath.getD "") = "")
    (hok : toolComposeAssembly lib q ex true = (.ok out, some st)) :
    ∃ p, lookupA st.prims
        (placedPathFor lib (decide (q.assets.length > 1))
          (deriveContainerRoot (pyStrip q.outputPath) q.containerRoot)
          (dirName (pyStrip q.outputPath)) a) = some p ∧
      placedRefFor lib (dirName (pyStrip q.outputPath)) a ∈ p.refs := by
  simp only [toolComposeAssembly, eq_self_iff_true, if_true] at hok
  split at hok
  · simp at hok
  · split at hok
    · simp at hok
    · split at hok
      · simp at hok
      · rename_i st1 n1 heq
        rw [Prod.mk.injEq] at hok
        obtain ⟨hout2, hst2⟩ := hok
        cases hst2
        obtain ⟨p, hp, hr⟩ := composeLoop_places lib q.flatten _ _ _
          q.assets _ 0 st1 n1 a hmem hsrc heq
        split
        · split
          · exact ⟨p, hp, hr⟩
          · exact ⟨p, hp, hr⟩
        · exact ⟨p, hp, hr⟩


/-- C8 counterexample: a single-asset call whose derived asset name equals the
container root's final component authors the reference on the container root
itself, not on `containerRoot/<name>` (`/Box/Box` does not exist). -/
theorem C8_counterexample :
    (toolComposeAssembly exComposeLib exComposeCollide none true).1.toOption =
      some ⟨"/tmp/out.usda", 1⟩ ∧
    ((toolComposeAssembly exComposeLib exComposeCollide none true).2.map
      (fun st => ((lookupA st.prims "/Box").map (fun p => p.refs),
        lookupA st.prims "/Box/Box")) =
      some (some [⟨"/lib/Box.usda", some "/BoxRoot"⟩], none)) := by
  decide

/-- C8 witness: the placement theorem at the two-asset layout example, whose
first asset lands on the wrapper child named after its default node. -/
theorem C8_placement_topology_witness :
    (¬ pyStrip ((⟨some "/lib/Chair.usda", none, none⟩ :
      AssetIn).assetPath.getD "") = "") ∧
    ∃ p, lookupA exC8St.prims
        (placedPathFor exComposeLib (decide (exComposeLayout.assets.length > 1))
          (deriveContainerRoot (pyStrip exComposeLayout.outputPath)
            exComposeLayout.containerRoot)
          (dirName (pyStrip exComposeLayout.outputPath))
          ⟨some "/lib/Chair.usda", none, none⟩) = some p ∧
      placedRefFor exComposeLib (dirName (pyStrip exComposeLayout.outputPath))
        ⟨some "/lib/Chair.usda", none, none⟩ ∈ p.refs :=
  ⟨by decide,
   C8_placement_topology exComposeLib exComposeLayout none
     ⟨some "/lib/Chair.usda", none, none⟩ ⟨"/tmp/out.usda", 2⟩ exC8St
     (List.mem_cons_self _ _) (by decide) rfl⟩

/-- C9: when `container_root` is omitted or left at the generic sentinel
`/Assets`, the container root is `/` + basename-without-extension of the
output path (whenever that basename is nonempty); any explicitly supplied
truthy non-sentinel value is used verbatim; and a successful call has a prim
at the derived container root. -/
theorem C9_container_root (q : ComposeParams)
    (hb : ¬ basenameNoExt (pyStrip q.outputPath) = "") :
    ((q.containerRoot = none ∨ q.containerRoot = some "/Assets") →
      deriveContainerRoot (pyStrip q.outputPath) q.containerRoot =
        "/" ++ basenameNoExt (pyStrip q.outputPath)) ∧
    (∀ s, q.containerRoot = some s → ¬ s = "" → ¬ s = "/Assets" →
      deriveContainerRoot (pyStrip q.outputPath) q.containerRoot = s) ∧
    (∀ lib ex out st, toolComposeAssembly lib q ex true = (.ok out, some st) →
      (lookupA st.prims
        (deriveContainerRoot (pyStrip q.outputPath) q.containerRoot)).isSome =
        true) := by
  refine ⟨?_, ?_, ?_⟩
  · rintro (h | h) <;>
    · rw [h]
      simp [deriveContainerRoot, strTruthy, hb]
  · intro s hs hne hna
    rw [hs]
    simp [deriveContainerRoot, strTruthy, hne, hna]
  · intro lib ex out st hok
    simp only [toolComposeAssembly, eq_self_iff_true, if_true] at hok
    split at hok
    · simp at hok
    · split at hok
      · simp at hok
      · split at hok
        · simp at hok
        · rename_i st1 n1 heq
          rw [Prod.mk.injEq] at hok
          obtain ⟨hout2, hst2⟩ := hok
          cases hst2
          have hs0 : ∀ (s0 : StageC), (lookupA (definePrim s0
              (deriveContainerRoot (pyStrip q.outputPath) q.containerRoot)
              "Xform").prims
              (deriveContainerRoot (pyStrip q.outputPath)
                q.containerRoot)).isSome = true := by
            intro s0
            obtain ⟨pc, hpc⟩ := lookupA_definePrim_self s0 _ "Xform"
            rw [hpc]
            rfl
          have h2 := composeLoop_isSome lib q.flatten _ _ _ q.assets _ 0
            st1 n1 _ (hs0 _) heq
          repeat' split
          all_goals exact h2

/-- C9 witness: the derivation theorem at the layout example, whose
container root is omitted and derives to `/out`. -/
theorem C9_container_root_witness :
    (¬ basenameNoExt (pyStrip exComposeLayout.outputPath) = "") ∧
    deriveContainerRoot (pyStrip exComposeLayout.outputPath)
      exComposeLayout.containerRoot =
      "/" ++ basenameNoExt (pyStrip exComposeLayout.outputPath) :=
  ⟨by decide, (C9_container_root exComposeLayout (by decide)).1 (Or.inl rfl)⟩


end UsdMcp
